import Mathlib

/-!
# Pong: a shallow embedding of `src/pong/pong.cpp`

The per-frame simulation of the game loop in `main`, the `ParticleSystem`
class and `getStreakMessage` are translated into Lean functions.

Modelling conventions
* `float` fields and expressions are exact rationals (`ℚ`).
* `int` values are mathematical integers (`Int`); signed overflow is undefined
  behaviour in C++ and is not modelled.
* `Uint32` tick values are naturals, and the unsigned subtraction of two ticks
  is taken modulo `2 ^ 32` (`u32sub`).
* `std::vector<Particle>` is a `List Particle`; an iterator is an index.
* Every call of `rand()` and of `SDL_GetTicks()` and the keyboard state are
  inputs of the frame (`FrameInput`); `rand()` returns a natural number.
* `cos`, `sin` and the macro `M_PI` come from `<cmath>`, which is not part of
  the repository: they are the fields of the parameter `Libm`.
* Rendering does not change the simulation state and is left out, except for
  the clearing of an expired streak message, which happens in the render
  section of the loop body.
-/

namespace Pong

/-! ## Constants -/

def SCREEN_WIDTH : Int := 800
def SCREEN_HEIGHT : Int := 600
def PADDLE_WIDTH : Int := 20
def PADDLE_HEIGHT : Int := 100
def PADDLE_SPEED : Int := 5
def BALL_RADIUS : Int := 10
def BALL_SPEED : Int := 5

/-- Streak message duration in milliseconds (`const Uint32` local of `main`). -/
def STREAK_MESSAGE_DURATION : Nat := 2000

/-! ## Data model -/

structure SDL_Color where
  r : Nat
  g : Nat
  b : Nat
  a : Nat
deriving DecidableEq, Repr

structure Particle where
  x : ℚ
  y : ℚ
  velX : ℚ
  velY : ℚ
  alpha : ℚ
  lifetime : ℚ
  color : SDL_Color
deriving DecidableEq

structure Paddle where
  x : ℚ
  y : ℚ
  width : Int
  height : Int
  speed : Int
deriving DecidableEq

structure Ball where
  x : ℚ
  y : ℚ
  velX : ℚ
  velY : ℚ
  radius : Int
deriving DecidableEq

/-- The part of `<cmath>` used by `ParticleSystem::emit`. -/
structure Libm where
  M_PI : ℚ
  cos : ℚ → ℚ
  sin : ℚ → ℚ

/-- Subtraction of two `Uint32` values. -/
def u32sub (a b : Nat) : Nat := (a % 2 ^ 32 + 2 ^ 32 - b % 2 ^ 32) % 2 ^ 32

/-! ## getStreakMessage -/

def getStreakMessage (streakCount : Int) : String :=
  if streakCount = 2 then "Double Kill!"
  else if streakCount = 3 then "Triple Kill!"
  else if streakCount = 4 then "Ultra Kill!"
  else if streakCount ≥ 5 then "Holy Shit!"
  else ""

/-! ## ParticleSystem -/

structure ParticleSystem where
  particles : List Particle
  maxParticles : Int
deriving DecidableEq

/-- The constructor `ParticleSystem(int maxParticles)`: an empty vector. -/
def ParticleSystem.new (maxParticles : Int) : ParticleSystem :=
  { particles := [], maxParticles := maxParticles }

/-- The speed computed by `emit` from its second `rand()` draw. -/
def emitSpeed (speedDraw : Nat) : ℚ := ((speedDraw % 50 : Nat) : ℚ) / 10 + 50

/-- The angle computed by `emit` from its first `rand()` draw. -/
def emitAngle (L : Libm) (angleDraw : Nat) : ℚ :=
  ((angleDraw % 360 : Nat) : ℚ) * (L.M_PI / 180)

/-- The particle built by `emit` before `push_back`. -/
def newParticle (L : Libm) (x y : ℚ) (color : SDL_Color) (angleDraw speedDraw : Nat) :
    Particle :=
  let angle := emitAngle L angleDraw
  let speed := emitSpeed speedDraw
  { x := x, y := y,
    velX := L.cos angle * speed,
    velY := L.sin angle * speed,
    alpha := 255,
    lifetime := 1,
    color := color }

/-- The method `emit`. The comparison `particles.size() >= maxParticles` is
between `size_t` and `int`, so `maxParticles` is converted to 64-bit unsigned. -/
def ParticleSystem.emit (L : Libm) (ps : ParticleSystem) (x y : ℚ) (color : SDL_Color)
    (angleDraw speedDraw : Nat) : ParticleSystem :=
  if (ps.particles.length : Int) ≥ ps.maxParticles % 2 ^ 64 then ps
  else { ps with particles := ps.particles ++ [newParticle L x y color angleDraw speedDraw] }

/-- The loop of `update`: `i` is the position of the iterator `it` in the
vector `v`. -/
def updateLoop (deltaTime : ℚ) (v : List Particle) (i : Nat) : List Particle :=
  if h : i < v.length then
    let p := v[i]
    let p1 : Particle :=
      { p with x := p.x + p.velX * deltaTime,
               y := p.y + p.velY * deltaTime,
               lifetime := p.lifetime - deltaTime }
    if p1.lifetime ≤ 0 then
      updateLoop deltaTime (v.eraseIdx i) i
    else
      updateLoop deltaTime (v.set i { p1 with alpha := p1.lifetime / 1 * 255 }) (i + 1)
  else v
termination_by v.length - i
decreasing_by
  all_goals simp_wf
  · rw [List.length_eraseIdx]
    simp [h]
    omega
  · omega

/-- The method `update`. -/
def ParticleSystem.update (ps : ParticleSystem) (deltaTime : ℚ) : ParticleSystem :=
  { ps with particles := updateLoop deltaTime ps.particles 0 }

/-- The body of the loop of `update` for the particle under the iterator:
`none` when the particle is erased, else the particle left in the vector. -/
def updateParticle (deltaTime : ℚ) (p : Particle) : Option Particle :=
  let p1 : Particle :=
    { p with x := p.x + p.velX * deltaTime,
             y := p.y + p.velY * deltaTime,
             lifetime := p.lifetime - deltaTime }
  if p1.lifetime ≤ 0 then none
  else some { p1 with alpha := p1.lifetime / 1 * 255 }

/-- A call of one of the two mutating methods of `ParticleSystem`. -/
inductive ParticleOp where
  | emit (x y : ℚ) (color : SDL_Color) (angleDraw speedDraw : Nat)
  | update (deltaTime : ℚ)

/-- The system after one method call. -/
def applyOp (L : Libm) (ps : ParticleSystem) : ParticleOp → ParticleSystem
  | .emit x y color angleDraw speedDraw => ps.emit L x y color angleDraw speedDraw
  | .update deltaTime => ps.update deltaTime

/-- The system after a sequence of method calls, in order. -/
def applyOps (L : Libm) (ops : List ParticleOp) (ps : ParticleSystem) : ParticleSystem :=
  ops.foldl (applyOp L) ps

/-- The delta-times of the `update` calls of a sequence of method calls, in
order. -/
def updateDeltas : List ParticleOp → List ℚ
  | [] => []
  | .emit _ _ _ _ _ :: ops => updateDeltas ops
  | .update deltaTime :: ops => deltaTime :: updateDeltas ops

/-- The vector `v` after `update` calls with the delta-times `ds`, with no
`emit` in between. -/
def agedBy (ds : List ℚ) (v : List Particle) : List Particle :=
  ds.foldl (fun v d => updateLoop d v 0) v

/-- One method call on a vector kept in three consecutive parts `(A, T, B)`,
for a system of capacity `cap` whose vector is `A ++ T ++ B`: `emit` tests the
total size and appends to the last part, `update` runs on each part. -/
def applyOpSplit (L : Libm) (cap : Int)
    (t : List Particle × List Particle × List Particle) :
    ParticleOp → List Particle × List Particle × List Particle
  | .emit x y color angleDraw speedDraw =>
    if ((t.1.length + t.2.1.length + t.2.2.length : Nat) : Int) ≥ cap % 2 ^ 64 then t
    else (t.1, t.2.1, t.2.2 ++ [newParticle L x y color angleDraw speedDraw])
  | .update deltaTime =>
    (updateLoop deltaTime t.1 0, updateLoop deltaTime t.2.1 0, updateLoop deltaTime t.2.2 0)

/-- A sequence of method calls on a vector kept in three consecutive parts. -/
def applyOpsSplit (L : Libm) (cap : Int) (ops : List ParticleOp)
    (t : List Particle × List Particle × List Particle) :
    List Particle × List Particle × List Particle :=
  ops.foldl (applyOpSplit L cap) t

/-- Reference for `update`, written from the specification: the particles
whose lifetime minus the delta-time is positive, in their original order, each
with its position advanced by velocity times delta-time, its lifetime reduced
by the delta-time and its alpha set to 255 times the new lifetime. -/
def updateReference (deltaTime : ℚ) (particles : List Particle) : List Particle :=
  (particles.filter (fun p => decide (p.lifetime - deltaTime > 0))).map
    (fun p =>
      { p with x := p.x + p.velX * deltaTime,
               y := p.y + p.velY * deltaTime,
               lifetime := p.lifetime - deltaTime,
               alpha := 255 * (p.lifetime - deltaTime) })

/-! ## The game loop of `main` -/

structure GameState where
  player : Paddle
  ai : Paddle
  ball : Ball
  playerScore : Int
  aiScore : Int
  playerStreak : Int
  aiStreak : Int
  currentStreakMessage : String
  streakMessageStartTime : Nat
  fireballParticles : ParticleSystem
  lastTick : Nat

/-- What one iteration of the game loop reads from its environment, in the
order of the reads. -/
structure FrameInput where
  /-- Value of `SDL_GetTicks()` at the start of the frame. -/
  currentTick : Nat
  /-- Value of `currentKeyStates[SDL_SCANCODE_W]`. -/
  keyW : Bool
  /-- Value of `currentKeyStates[SDL_SCANCODE_S]`. -/
  keyS : Bool
  /-- First `rand()` draw of `emit`. -/
  angleDraw : Nat
  /-- Second `rand()` draw of `emit`. -/
  speedDraw : Nat
  /-- Value of `SDL_GetTicks()` when a streak message is recorded. -/
  scoreTick : Nat
  /-- First `rand()` draw of the ball reset. -/
  velXDraw : Nat
  /-- Second `rand()` draw of the ball reset. -/
  velYDraw : Nat
  /-- Value of `SDL_GetTicks()` in the render section. -/
  currentTime : Nat

/-- The expression `(rand() % 2 == 0) ? BALL_SPEED : -BALL_SPEED`. -/
def randomDirection (draw : Nat) : ℚ :=
  if draw % 2 = 0 then (BALL_SPEED : ℚ) else ((-BALL_SPEED : Int) : ℚ)

/-- The state before the first iteration of the loop: `velXDraw`, `velYDraw`
are the two `rand()` draws of the ball, `startTick` is `SDL_GetTicks()`. -/
def initialState (velXDraw velYDraw startTick : Nat) : GameState :=
  { player :=
      { width := PADDLE_WIDTH, height := PADDLE_HEIGHT, x := 50,
        y := (SCREEN_HEIGHT : ℚ) / 2 - (PADDLE_HEIGHT : ℚ) / 2,
        speed := PADDLE_SPEED },
    ai :=
      { width := PADDLE_WIDTH, height := PADDLE_HEIGHT,
        x := ((SCREEN_WIDTH - 50 - PADDLE_WIDTH : Int) : ℚ),
        y := (SCREEN_HEIGHT : ℚ) / 2 - (PADDLE_HEIGHT : ℚ) / 2,
        speed := PADDLE_SPEED - 2 },
    ball :=
      { radius := BALL_RADIUS,
        x := (SCREEN_WIDTH : ℚ) / 2,
        y := (SCREEN_HEIGHT : ℚ) / 2,
        velX := randomDirection velXDraw,
        velY := randomDirection velYDraw },
    playerScore := 0,
    aiScore := 0,
    playerStreak := 0,
    aiStreak := 0,
    currentStreakMessage := "",
    streakMessageStartTime := 0,
    fireballParticles := ParticleSystem.new 500,
    lastTick := startTick }

/-- Handle player input (keys W and S, with clamping). -/
def handlePlayerInput (keyW keyS : Bool) (player : Paddle) : Paddle :=
  let p1 : Paddle :=
    if keyW = true ∧ player.y > 0 then
      let y := player.y - (player.speed : ℚ)
      { player with y := if y < 0 then 0 else y }
    else player
  if keyS = true ∧ p1.y < ((SCREEN_HEIGHT - p1.height : Int) : ℚ) then
    let y := p1.y + (p1.speed : ℚ)
    { p1 with y := if y > ((SCREEN_HEIGHT - p1.height : Int) : ℚ)
                   then ((SCREEN_HEIGHT - p1.height : Int) : ℚ) else y }
  else p1

/-- Simple AI: move towards the ball's y position. -/
def moveAI (ai : Paddle) (ball : Ball) : Paddle :=
  if ai.y + (ai.height : ℚ) / 2 < ball.y ∧ ai.y < ((SCREEN_HEIGHT - ai.height : Int) : ℚ) then
    { ai with y := ai.y + (ai.speed : ℚ) }
  else if ai.y + (ai.height : ℚ) / 2 > ball.y ∧ ai.y > 0 then
    { ai with y := ai.y - (ai.speed : ℚ) }
  else ai

/-- Move the ball. -/
def moveBall (ball : Ball) : Ball :=
  { ball with x := ball.x + ball.velX, y := ball.y + ball.velY }

/-- Condition of the collision with top and bottom. -/
def hitsWall (ball : Ball) : Prop :=
  ball.y - (ball.radius : ℚ) ≤ 0 ∨ ball.y + (ball.radius : ℚ) ≥ (SCREEN_HEIGHT : ℚ)

instance (ball : Ball) : Decidable (hitsWall ball) := by
  unfold hitsWall; infer_instance

/-- Collision with top and bottom. -/
def bounceWalls (ball : Ball) : Ball :=
  if hitsWall ball then { ball with velY := -ball.velY } else ball

/-- Condition of the collision with the player paddle. -/
def overlapsPlayer (player : Paddle) (ball : Ball) : Prop :=
  ball.x - (ball.radius : ℚ) ≤ player.x + (player.width : ℚ) ∧
  ball.x + (ball.radius : ℚ) ≥ player.x ∧
  ball.y + (ball.radius : ℚ) ≥ player.y ∧
  ball.y - (ball.radius : ℚ) ≤ player.y + (player.height : ℚ)

instance (player : Paddle) (ball : Ball) : Decidable (overlapsPlayer player ball) := by
  unfold overlapsPlayer; infer_instance

/-- Collision with the player paddle. -/
def collidePlayer (player : Paddle) (ball : Ball) : Ball :=
  if overlapsPlayer player ball then { ball with velX := |ball.velX| } else ball

/-- Condition of the collision with the AI paddle. -/
def overlapsAI (ai : Paddle) (ball : Ball) : Prop :=
  ball.x + (ball.radius : ℚ) ≥ ai.x ∧
  ball.x - (ball.radius : ℚ) ≤ ai.x + (ai.width : ℚ) ∧
  ball.y + (ball.radius : ℚ) ≥ ai.y ∧
  ball.y - (ball.radius : ℚ) ≤ ai.y + (ai.height : ℚ)

instance (ai : Paddle) (ball : Ball) : Decidable (overlapsAI ai ball) := by
  unfold overlapsAI; infer_instance

/-- Collision with the AI paddle. -/
def collideAI (ai : Paddle) (ball : Ball) : Ball :=
  if overlapsAI ai ball then { ball with velX := -|ball.velX| } else ball

/-- First scoring condition: the ball's left edge is past the left boundary. -/
def aiScores (ball : Ball) : Prop := ball.x - (ball.radius : ℚ) < 0

instance (ball : Ball) : Decidable (aiScores ball) := by
  unfold aiScores; infer_instance

/-- Second scoring condition, tested only when the first one fails. -/
def playerScores (ball : Ball) : Prop :=
  ¬ aiScores ball ∧ ball.x + (ball.radius : ℚ) > (SCREEN_WIDTH : ℚ)

instance (ball : Ball) : Decidable (playerScores ball) := by
  unfold playerScores; infer_instance

/-- Reset the ball to center with random direction. -/
def resetBall (ball : Ball) (velXDraw velYDraw : Nat) : Ball :=
  { ball with x := (SCREEN_WIDTH : ℚ) / 2,
              y := (SCREEN_HEIGHT : ℚ) / 2,
              velX := randomDirection velXDraw,
              velY := randomDirection velYDraw }

/-- Check for scoring. -/
def checkScoring (inp : FrameInput) (s : GameState) : GameState :=
  if s.ball.x - (s.ball.radius : ℚ) < 0 then
    let aiStreak := s.aiStreak + 1
    let streakMsg := getStreakMessage aiStreak
    { s with
      aiScore := s.aiScore + 1,
      aiStreak := aiStreak,
      playerStreak := 0,
      currentStreakMessage := if streakMsg ≠ "" then streakMsg else s.currentStreakMessage,
      streakMessageStartTime :=
        if streakMsg ≠ "" then inp.scoreTick else s.streakMessageStartTime,
      ball := resetBall s.ball inp.velXDraw inp.velYDraw }
  else if s.ball.x + (s.ball.radius : ℚ) > (SCREEN_WIDTH : ℚ) then
    let playerStreak := s.playerStreak + 1
    let streakMsg := getStreakMessage playerStreak
    { s with
      playerScore := s.playerScore + 1,
      playerStreak := playerStreak,
      aiStreak := 0,
      currentStreakMessage := if streakMsg ≠ "" then streakMsg else s.currentStreakMessage,
      streakMessageStartTime :=
        if streakMsg ≠ "" then inp.scoreTick else s.streakMessageStartTime,
      ball := resetBall s.ball inp.velXDraw inp.velYDraw }
  else s

/-- The streak message after the render section: kept while
`currentTime - streakMessageStartTime <= STREAK_MESSAGE_DURATION`, else cleared. -/
def expireStreakMessage (currentTime : Nat) (message : String) (startTime : Nat) : String :=
  if message ≠ "" then
    if u32sub currentTime startTime ≤ STREAK_MESSAGE_DURATION then message
    else ""
  else message

/-- The state of the loop body just before the scoring check: input, AI,
ball movement, particles, wall and paddle collisions. -/
def beforeScoring (L : Libm) (inp : FrameInput) (s : GameState) : GameState :=
  let deltaTime : ℚ := (u32sub inp.currentTick s.lastTick : ℚ) / 1000
  let player := handlePlayerInput inp.keyW inp.keyS s.player
  let ai := moveAI s.ai s.ball
  let ball := moveBall s.ball
  let fireColor : SDL_Color := { r := 255, g := 165, b := 0, a := 255 }
  let particles :=
    (s.fireballParticles.emit L ball.x ball.y fireColor inp.angleDraw inp.speedDraw).update
      deltaTime
  let ball := collideAI ai (collidePlayer player (bounceWalls ball))
  { s with
    lastTick := inp.currentTick,
    player := player,
    ai := ai,
    ball := ball,
    fireballParticles := particles }

/-- One iteration of the game loop. -/
def frame (L : Libm) (inp : FrameInput) (s : GameState) : GameState :=
  let s1 := checkScoring inp (beforeScoring L inp s)
  { s1 with
    currentStreakMessage :=
      expireStreakMessage inp.currentTime s1.currentStreakMessage s1.streakMessageStartTime }

/-- The states the game loop can be in at the start of an iteration. -/
inductive Reachable (L : Libm) : GameState → Prop
  | init (velXDraw velYDraw startTick : Nat) :
      Reachable L (initialState velXDraw velYDraw startTick)
  | step (inp : FrameInput) (s : GameState) :
      Reachable L s → Reachable L (frame L inp s)

/-- The state after the frames with the inputs `inps`, in order. -/
def run (L : Libm) (inps : List FrameInput) (s : GameState) : GameState :=
  inps.foldl (fun s inp => frame L inp s) s

/-- The fields that no statement of the loop body assigns, at their initial
values. -/
structure StaticInv (s : GameState) : Prop where
  player_x : s.player.x = 50
  player_width : s.player.width = 20
  player_height : s.player.height = 100
  player_speed : s.player.speed = 5
  ai_x : s.ai.x = 730
  ai_width : s.ai.width = 20
  ai_height : s.ai.height = 100
  ai_speed : s.ai.speed = 3
  ball_radius : s.ball.radius = 10
  maxParticles : s.fireballParticles.maxParticles = 500

/-- The paddles and the ball of a state. -/
def kinematics (s : GameState) : Paddle × Paddle × Ball := (s.player, s.ai, s.ball)

/-- A state with the given paddles and ball. -/
def withKinematics (k : Paddle × Paddle × Ball) : GameState :=
  { initialState 0 0 0 with player := k.1, ai := k.2.1, ball := k.2.2 }

/-- The vertical state of the ball: radius 10, `y = 5 * k` for an integer `k`
from 2 to 118, vertical velocity 5 or -5, pointing down at `y = 10` and up at
`y = 590`. -/
def BallYInv (b : Ball) : Prop :=
  b.radius = 10 ∧
  ∃ k : Int, b.y = 5 * (k : ℚ) ∧ 2 ≤ k ∧ k ≤ 118 ∧ (b.velY = 5 ∨ b.velY = -5) ∧
    (k = 2 → b.velY = 5) ∧ (k = 118 → b.velY = -5)

/-- The relations between the two streak counters and the two scores. -/
structure StreakInv (s : GameState) : Prop where
  playerStreak_nonneg : 0 ≤ s.playerStreak
  aiStreak_nonneg : 0 ≤ s.aiStreak
  exclusive : s.playerStreak = 0 ∨ s.aiStreak = 0
  player_le : s.playerStreak ≤ s.playerScore
  ai_le : s.aiStreak ≤ s.aiScore

/-! ## Concrete inputs used to exercise the theorems -/

/-- A stand-in for `<cmath>`: every direction is the positive x axis. -/
def demoLibm : Libm := { M_PI := 355 / 113, cos := fun _ => 1, sin := fun _ => 0 }

/-- The ball is about to leave through the left edge: it moves to `(5, 300)`.
The player holds a streak of two with its message on screen. -/
def leftExitState : GameState :=
  { initialState 1 0 0 with
    ball := { x := 10, y := 295, velX := -5, velY := 5, radius := 10 },
    playerScore := 2,
    playerStreak := 2,
    currentStreakMessage := "Double Kill!",
    streakMessageStartTime := 1000 }

/-- The ball is about to leave through the right edge: it moves to `(795, 300)`.
The player already has a streak of one. -/
def rightExitState : GameState :=
  { initialState 0 0 0 with
    ball := { x := 790, y := 295, velX := 5, velY := 5, radius := 10 },
    playerScore := 1,
    playerStreak := 1,
    aiScore := 4 }

/-- A frame without key presses, 16 ms after the previous one. -/
def idleInput : FrameInput :=
  { currentTick := 16, keyW := false, keyS := false, angleDraw := 90, speedDraw := 7,
    scoreTick := 1500, velXDraw := 3, velYDraw := 4, currentTime := 1501 }

/-- A frame with the W key held. -/
def holdWInput : FrameInput :=
  { currentTick := 16, keyW := true, keyS := false, angleDraw := 45, speedDraw := 12,
    scoreTick := 1500, velXDraw := 0, velYDraw := 1, currentTime := 1501 }

/-- The ball is served up and to the left and the player holds W for 63
frames: in the next frame the ball reaches the player paddle. -/
def beforePlayerHit : GameState :=
  run demoLibm (List.replicate 63 holdWInput) (initialState 1 1 0)

/-- The ball is served down and to the right and 65 frames pass without key
presses: in the next frame the ball reaches the AI paddle. -/
def beforeAIHit : GameState :=
  run demoLibm (List.replicate 65 idleInput) (initialState 0 0 0)

/-- The colour passed to `emit` by the game loop. -/
def fireColor : SDL_Color := { r := 255, g := 165, b := 0, a := 255 }

/-- One `emit` call at the screen centre. -/
def emitOp : ParticleOp := .emit 400 300 fireColor 90 7

/-- A system of capacity 500 that holds 500 particles. -/
def fullSystem : ParticleSystem :=
  { particles := List.replicate 500 (newParticle demoLibm 400 300 fireColor 90 7),
    maxParticles := 500 }

/-- A particle emitted half a second ago. -/
def agingParticle : Particle :=
  { x := 390, y := 290, velX := 50, velY := 0, alpha := 255 / 2, lifetime := 1 / 2,
    color := fireColor }

/-- A system of capacity 500 that holds `agingParticle`. -/
def busySystem : ParticleSystem := { particles := [agingParticle], maxParticles := 500 }

/-- Three `update` calls of a quarter second each, with an `emit` after the
first one. -/
def lifetimeOps : List ParticleOp :=
  [.update (1 / 4), emitOp, .update (1 / 4), .update (1 / 4)]

/-- The game one frame after the AI won the first point: the ball left
through the left edge in frame 79, after a bounce off the top wall. -/
def afterFirstPoint : GameState :=
  run demoLibm (List.replicate 80 idleInput) (initialState 1 1 0)

/-- A frame with the S key held. -/
def holdSInput : FrameInput :=
  { currentTick := 16, keyW := false, keyS := true, angleDraw := 45, speedDraw := 12,
    scoreTick := 1500, velXDraw := 0, velYDraw := 1, currentTime := 1501 }

/-- A frame with both keys held. -/
def holdBothInput : FrameInput :=
  { currentTick := 16, keyW := true, keyS := true, angleDraw := 45, speedDraw := 12,
    scoreTick := 1500, velXDraw := 0, velYDraw := 1, currentTime := 1501 }

/-- The player has held S for 60 frames: the paddle is at the bottom. -/
def playerAtBottom : GameState :=
  run demoLibm (List.replicate 60 holdSInput) (initialState 1 1 0)

/-- The paddles and the ball after 75 idle frames from `initialState 1 0 0`. -/
def idleAfter75 : Paddle × Paddle × Ball :=
  ({ x := 50, y := 250, width := 20, height := 100, speed := 5 },
   { x := 730, y := 460, width := 20, height := 100, speed := 3 },
   { x := 25, y := 505, velX := -5, velY := -5, radius := 10 })

/-- The paddles and the ball after 150 idle frames from `initialState 1 0 0`. -/
def idleAfter150 : Paddle × Paddle × Ball :=
  ({ x := 50, y := 250, width := 20, height := 100, speed := 5 },
   { x := 730, y := 487, width := 20, height := 100, speed := 3 },
   { x := 45, y := 525, velX := -5, velY := -5, radius := 10 })

/-- The paddles and the ball after 225 idle frames from `initialState 1 0 0`. -/
def idleAfter225 : Paddle × Paddle × Ball :=
  ({ x := 50, y := 250, width := 20, height := 100, speed := 5 },
   { x := 730, y := 502, width := 20, height := 100, speed := 3 },
   { x := 65, y := 545, velX := -5, velY := -5, radius := 10 })

/-- The ball is served down and to the left and 225 frames pass without key
presses: the AI wins two points, and while it follows the third ball down to
the bottom wall its paddle overshoots to `y = 502`. -/
def aiOvershoot : GameState :=
  run demoLibm (List.replicate 75 idleInput)
    (run demoLibm (List.replicate 75 idleInput)
      (run demoLibm (List.replicate 75 idleInput) (initialState 1 0 0)))

/-- The ball is served up and to the left and 57 idle frames pass: the ball
is at `y = 15` and reaches the top wall in the next frame. -/
def beforeWallHit : GameState :=
  run demoLibm (List.replicate 57 idleInput) (initialState 1 1 0)

/-! ## Shared lemmas -/

/-- The loop of `update`, started with the iterator behind the prefix `l`,
leaves `l` as it is and applies the loop body to every particle of `r`, in
order. -/
theorem updateLoop_append (dt : ℚ) (r l : List Particle) :
    updateLoop dt (l ++ r) l.length = l ++ r.filterMap (updateParticle dt) := by
  induction r generalizing l with
  | nil =>
    rw [updateLoop]
    simp
  | cons p r ih =>
    rw [updateLoop]
    have hlt : l.length < (l ++ p :: r).length := by simp
    rw [dif_pos hlt]
    have hget : (l ++ p :: r)[l.length] = p := by
      rw [List.getElem_append_right (le_refl _)]
      simp
    simp only [hget]
    by_cases hdead : p.lifetime - dt ≤ 0
    · rw [if_pos hdead]
      have herase : (l ++ p :: r).eraseIdx l.length = l ++ r := by
        rw [List.eraseIdx_append_of_length_le (le_refl _)]
        simp
      rw [herase, ih l]
      simp [updateParticle, hdead]
    · rw [if_neg hdead]
      have hset : ∀ q : Particle, (l ++ p :: r).set l.length q = (l ++ [q]) ++ r := by
        intro q
        simp
      rw [hset]
      have hlen : ∀ q : Particle, l.length + 1 = (l ++ [q]).length := by
        intro q; simp
      rw [hlen, ih]
      simp [updateParticle, hdead]

theorem update_particles (ps : ParticleSystem) (dt : ℚ) :
    (ps.update dt).particles = ps.particles.filterMap (updateParticle dt) := by
  have h := updateLoop_append dt ps.particles []
  simpa [ParticleSystem.update] using h

theorem emit_maxParticles (L : Libm) (ps : ParticleSystem) (x y : ℚ) (c : SDL_Color)
    (a b : Nat) : (ps.emit L x y c a b).maxParticles = ps.maxParticles := by
  unfold ParticleSystem.emit
  split_ifs <;> rfl

theorem update_maxParticles (ps : ParticleSystem) (dt : ℚ) :
    (ps.update dt).maxParticles = ps.maxParticles := rfl

theorem update_length_le (ps : ParticleSystem) (dt : ℚ) :
    (ps.update dt).particles.length ≤ ps.particles.length := by
  rw [update_particles]
  exact List.length_filterMap_le _ _

/-- The method `emit` is a no-op on a system of capacity 500 that holds at
least 500 particles. -/
theorem emit_full (L : Libm) (ps : ParticleSystem) (x y : ℚ) (c : SDL_Color) (a b : Nat)
    (hcap : ps.maxParticles = 500) (hfull : 500 ≤ ps.particles.length) :
    ps.emit L x y c a b = ps := by
  unfold ParticleSystem.emit
  rw [hcap, if_pos]
  norm_num
  exact_mod_cast hfull

theorem emit_length_le (L : Libm) (ps : ParticleSystem) (x y : ℚ) (c : SDL_Color) (a b : Nat)
    (hcap : ps.maxParticles = 500) (hlen : ps.particles.length ≤ 500) :
    (ps.emit L x y c a b).particles.length ≤ 500 := by
  unfold ParticleSystem.emit
  rw [hcap]
  split_ifs with h
  · exact hlen
  · have h2 : ¬ (500 : Int) ≤ (ps.particles.length : Int) := by
      norm_num at h ⊢
      exact h
    have h3 : ps.particles.length < 500 := by omega
    simp
    omega

theorem applyOps_bounded (L : Libm) (ops : List ParticleOp) (ps : ParticleSystem)
    (hcap : ps.maxParticles = 500) (hlen : ps.particles.length ≤ 500) :
    (applyOps L ops ps).maxParticles = 500 ∧ (applyOps L ops ps).particles.length ≤ 500 := by
  induction ops generalizing ps with
  | nil => exact ⟨hcap, hlen⟩
  | cons op ops ih =>
    show (applyOps L ops (applyOp L ps op)).maxParticles = 500 ∧ _
    cases op with
    | emit x y c a b =>
      exact ih _ (by rw [applyOp, emit_maxParticles, hcap])
        (emit_length_le L ps x y c a b hcap hlen)
    | update dt =>
      exact ih _ hcap (le_trans (update_length_le ps dt) hlen)

theorem bounceWalls_x (b : Ball) : (bounceWalls b).x = b.x := by
  unfold bounceWalls; split_ifs <;> rfl

theorem bounceWalls_y (b : Ball) : (bounceWalls b).y = b.y := by
  unfold bounceWalls; split_ifs <;> rfl

theorem bounceWalls_radius (b : Ball) : (bounceWalls b).radius = b.radius := by
  unfold bounceWalls; split_ifs <;> rfl

theorem bounceWalls_velX (b : Ball) : (bounceWalls b).velX = b.velX := by
  unfold bounceWalls; split_ifs <;> rfl

theorem collidePlayer_x (p : Paddle) (b : Ball) : (collidePlayer p b).x = b.x := by
  unfold collidePlayer; split_ifs <;> rfl

theorem collidePlayer_y (p : Paddle) (b : Ball) : (collidePlayer p b).y = b.y := by
  unfold collidePlayer; split_ifs <;> rfl

theorem collidePlayer_radius (p : Paddle) (b : Ball) : (collidePlayer p b).radius = b.radius := by
  unfold collidePlayer; split_ifs <;> rfl

theorem collidePlayer_velY (p : Paddle) (b : Ball) : (collidePlayer p b).velY = b.velY := by
  unfold collidePlayer; split_ifs <;> rfl

theorem collideAI_x (p : Paddle) (b : Ball) : (collideAI p b).x = b.x := by
  unfold collideAI; split_ifs <;> rfl

theorem collideAI_y (p : Paddle) (b : Ball) : (collideAI p b).y = b.y := by
  unfold collideAI; split_ifs <;> rfl

theorem collideAI_radius (p : Paddle) (b : Ball) : (collideAI p b).radius = b.radius := by
  unfold collideAI; split_ifs <;> rfl

theorem collideAI_velY (p : Paddle) (b : Ball) : (collideAI p b).velY = b.velY := by
  unfold collideAI; split_ifs <;> rfl

/-- The ball just before the scoring check. -/
theorem beforeScoring_ball (L : Libm) (inp : FrameInput) (s : GameState) :
    (beforeScoring L inp s).ball =
      collideAI (moveAI s.ai s.ball)
        (collidePlayer (handlePlayerInput inp.keyW inp.keyS s.player)
          (bounceWalls (moveBall s.ball))) := rfl

theorem beforeScoring_ball_x (L : Libm) (inp : FrameInput) (s : GameState) :
    (beforeScoring L inp s).ball.x = (moveBall s.ball).x := by
  rw [beforeScoring_ball, collideAI_x, collidePlayer_x, bounceWalls_x]

theorem beforeScoring_ball_radius (L : Libm) (inp : FrameInput) (s : GameState) :
    (beforeScoring L inp s).ball.radius = (moveBall s.ball).radius := by
  rw [beforeScoring_ball, collideAI_radius, collidePlayer_radius, bounceWalls_radius]

/-- The scoring check takes its first branch exactly when the moved ball
satisfies `aiScores`. -/
theorem beforeScoring_aiScores (L : Libm) (inp : FrameInput) (s : GameState) :
    (beforeScoring L inp s).ball.x - ((beforeScoring L inp s).ball.radius : ℚ) < 0 ↔
      aiScores (moveBall s.ball) := by
  rw [beforeScoring_ball_x, beforeScoring_ball_radius]; rfl

theorem beforeScoring_right (L : Libm) (inp : FrameInput) (s : GameState) :
    (beforeScoring L inp s).ball.x + ((beforeScoring L inp s).ball.radius : ℚ) >
      (SCREEN_WIDTH : ℚ) ↔
      (moveBall s.ball).x + ((moveBall s.ball).radius : ℚ) > (SCREEN_WIDTH : ℚ) := by
  rw [beforeScoring_ball_x, beforeScoring_ball_radius]

/-- The scoring check when the AI scores. -/
theorem checkScoring_ai (inp : FrameInput) (s : GameState)
    (h : s.ball.x - (s.ball.radius : ℚ) < 0) :
    checkScoring inp s =
      { s with
        aiScore := s.aiScore + 1,
        aiStreak := s.aiStreak + 1,
        playerStreak := 0,
        currentStreakMessage :=
          if getStreakMessage (s.aiStreak + 1) ≠ "" then getStreakMessage (s.aiStreak + 1)
          else s.currentStreakMessage,
        streakMessageStartTime :=
          if getStreakMessage (s.aiStreak + 1) ≠ "" then inp.scoreTick
          else s.streakMessageStartTime,
        ball := resetBall s.ball inp.velXDraw inp.velYDraw } := by
  unfold checkScoring
  rw [if_pos h]

/-- The scoring check when the player scores. -/
theorem checkScoring_player (inp : FrameInput) (s : GameState)
    (h1 : ¬ s.ball.x - (s.ball.radius : ℚ) < 0)
    (h2 : s.ball.x + (s.ball.radius : ℚ) > (SCREEN_WIDTH : ℚ)) :
    checkScoring inp s =
      { s with
        playerScore := s.playerScore + 1,
        playerStreak := s.playerStreak + 1,
        aiStreak := 0,
        currentStreakMessage :=
          if getStreakMessage (s.playerStreak + 1) ≠ "" then
            getStreakMessage (s.playerStreak + 1)
          else s.currentStreakMessage,
        streakMessageStartTime :=
          if getStreakMessage (s.playerStreak + 1) ≠ "" then inp.scoreTick
          else s.streakMessageStartTime,
        ball := resetBall s.ball inp.velXDraw inp.velYDraw } := by
  unfold checkScoring
  rw [if_neg h1, if_pos h2]

/-- The scoring check when nobody scores. -/
theorem checkScoring_none (inp : FrameInput) (s : GameState)
    (h1 : ¬ s.ball.x - (s.ball.radius : ℚ) < 0)
    (h2 : ¬ s.ball.x + (s.ball.radius : ℚ) > (SCREEN_WIDTH : ℚ)) :
    checkScoring inp s = s := by
  unfold checkScoring
  rw [if_neg h1, if_neg h2]

theorem checkScoring_paddles (inp : FrameInput) (s : GameState) :
    (checkScoring inp s).player = s.player ∧ (checkScoring inp s).ai = s.ai ∧
    (checkScoring inp s).fireballParticles = s.fireballParticles ∧
    (checkScoring inp s).lastTick = s.lastTick := by
  unfold checkScoring
  split_ifs <;> exact ⟨rfl, rfl, rfl, rfl⟩

theorem checkScoring_ball_cases (inp : FrameInput) (s : GameState) :
    (checkScoring inp s).ball = s.ball ∨
    (checkScoring inp s).ball = resetBall s.ball inp.velXDraw inp.velYDraw := by
  unfold checkScoring
  split_ifs
  · right; rfl
  · right; rfl
  · left; rfl

theorem frame_player (L : Libm) (inp : FrameInput) (s : GameState) :
    (frame L inp s).player = handlePlayerInput inp.keyW inp.keyS s.player := by
  show (checkScoring inp (beforeScoring L inp s)).player = _
  rw [(checkScoring_paddles inp _).1]; rfl

theorem frame_ai (L : Libm) (inp : FrameInput) (s : GameState) :
    (frame L inp s).ai = moveAI s.ai s.ball := by
  show (checkScoring inp (beforeScoring L inp s)).ai = _
  rw [(checkScoring_paddles inp _).2.1]; rfl

theorem frame_ball (L : Libm) (inp : FrameInput) (s : GameState) :
    (frame L inp s).ball = (checkScoring inp (beforeScoring L inp s)).ball := rfl

theorem frame_particles (L : Libm) (inp : FrameInput) (s : GameState) :
    (frame L inp s).fireballParticles =
      (s.fireballParticles.emit L (moveBall s.ball).x (moveBall s.ball).y
        { r := 255, g := 165, b := 0, a := 255 } inp.angleDraw inp.speedDraw).update
        ((u32sub inp.currentTick s.lastTick : ℚ) / 1000) := by
  show (checkScoring inp (beforeScoring L inp s)).fireballParticles = _
  rw [(checkScoring_paddles inp _).2.2.1]; rfl

theorem handlePlayerInput_static (keyW keyS : Bool) (p : Paddle) :
    (handlePlayerInput keyW keyS p).x = p.x ∧ (handlePlayerInput keyW keyS p).width = p.width ∧
    (handlePlayerInput keyW keyS p).height = p.height ∧
    (handlePlayerInput keyW keyS p).speed = p.speed := by
  unfold handlePlayerInput
  dsimp only
  split_ifs <;> exact ⟨rfl, rfl, rfl, rfl⟩

theorem moveAI_static (ai : Paddle) (b : Ball) :
    (moveAI ai b).x = ai.x ∧ (moveAI ai b).width = ai.width ∧
    (moveAI ai b).height = ai.height ∧ (moveAI ai b).speed = ai.speed := by
  unfold moveAI
  split_ifs <;> exact ⟨rfl, rfl, rfl, rfl⟩

theorem frame_ball_radius (L : Libm) (inp : FrameInput) (s : GameState) :
    (frame L inp s).ball.radius = s.ball.radius := by
  rw [frame_ball]
  rcases checkScoring_ball_cases inp (beforeScoring L inp s) with h | h <;> rw [h]
  · rw [beforeScoring_ball_radius]; rfl
  · show (beforeScoring L inp s).ball.radius = _
    rw [beforeScoring_ball_radius]; rfl

theorem initialState_static (a b t : Nat) : StaticInv (initialState a b t) := by
  constructor <;>
    simp [initialState, PADDLE_WIDTH, PADDLE_HEIGHT, PADDLE_SPEED, SCREEN_WIDTH, BALL_RADIUS,
      ParticleSystem.new]

theorem frame_static (L : Libm) (inp : FrameInput) (s : GameState) (h : StaticInv s) :
    StaticInv (frame L inp s) := by
  have hp := handlePlayerInput_static inp.keyW inp.keyS s.player
  have ha := moveAI_static s.ai s.ball
  constructor
  · rw [frame_player, hp.1, h.player_x]
  · rw [frame_player, hp.2.1, h.player_width]
  · rw [frame_player, hp.2.2.1, h.player_height]
  · rw [frame_player, hp.2.2.2, h.player_speed]
  · rw [frame_ai, ha.1, h.ai_x]
  · rw [frame_ai, ha.2.1, h.ai_width]
  · rw [frame_ai, ha.2.2.1, h.ai_height]
  · rw [frame_ai, ha.2.2.2, h.ai_speed]
  · rw [frame_ball_radius, h.ball_radius]
  · rw [frame_particles]
    show (ParticleSystem.emit L s.fireballParticles _ _ _ _ _).maxParticles = 500
    rw [emit_maxParticles, h.maxParticles]

theorem reachable_static (L : Libm) (s : GameState) (h : Reachable L s) : StaticInv s := by
  induction h with
  | init a b t => exact initialState_static a b t
  | step inp s _ ih => exact frame_static L inp s ih

theorem randomDirection_cases (draw : Nat) :
    randomDirection draw = 5 ∨ randomDirection draw = -5 := by
  unfold randomDirection BALL_SPEED
  split_ifs
  · left; norm_num
  · right; norm_num

theorem abs_randomDirection (draw : Nat) : |randomDirection draw| = 5 := by
  rcases randomDirection_cases draw with h | h <;> rw [h] <;> norm_num

theorem bounceWalls_abs_velY (b : Ball) : |(bounceWalls b).velY| = |b.velY| := by
  unfold bounceWalls
  split_ifs
  · exact abs_neg _
  · rfl

theorem collidePlayer_abs_velX (p : Paddle) (b : Ball) :
    |(collidePlayer p b).velX| = |b.velX| := by
  unfold collidePlayer
  split_ifs
  · exact abs_abs _
  · rfl

theorem collideAI_abs_velX (p : Paddle) (b : Ball) : |(collideAI p b).velX| = |b.velX| := by
  unfold collideAI
  split_ifs
  · show |(-|b.velX|)| = _
    rw [abs_neg, abs_abs]
  · rfl

/-- The loop body keeps both velocity components at magnitude 5. -/
theorem frame_speed (L : Libm) (inp : FrameInput) (s : GameState)
    (h : |s.ball.velX| = 5 ∧ |s.ball.velY| = 5) :
    |(frame L inp s).ball.velX| = 5 ∧ |(frame L inp s).ball.velY| = 5 := by
  rw [frame_ball]
  rcases checkScoring_ball_cases inp (beforeScoring L inp s) with e | e <;> rw [e]
  · rw [beforeScoring_ball, collideAI_abs_velX, collidePlayer_abs_velX, bounceWalls_velX,
      collideAI_velY, collidePlayer_velY, bounceWalls_abs_velY]
    exact h
  · exact ⟨abs_randomDirection _, abs_randomDirection _⟩

theorem reachable_speed (L : Libm) (s : GameState) (h : Reachable L s) :
    |s.ball.velX| = 5 ∧ |s.ball.velY| = 5 := by
  induction h with
  | init a b t => exact ⟨abs_randomDirection _, abs_randomDirection _⟩
  | step inp s _ ih => exact frame_speed L inp s ih

theorem reachable_run (L : Libm) (inps : List FrameInput) (s : GameState)
    (h : Reachable L s) : Reachable L (run L inps s) := by
  induction inps generalizing s with
  | nil => exact h
  | cons inp rest ih => exact ih _ (Reachable.step inp s h)

theorem overlapsPlayer_congr (p : Paddle) (b c : Ball) (hx : c.x = b.x) (hy : c.y = b.y)
    (hr : c.radius = b.radius) : overlapsPlayer p c ↔ overlapsPlayer p b := by
  unfold overlapsPlayer
  rw [hx, hy, hr]

theorem overlapsAI_congr (p : Paddle) (b c : Ball) (hx : c.x = b.x) (hy : c.y = b.y)
    (hr : c.radius = b.radius) : overlapsAI p c ↔ overlapsAI p b := by
  unfold overlapsAI
  rw [hx, hy, hr]

/-- With the paddles at `x = 50` and `x = 730`, a ball of radius 10 that
overlaps the player paddle overlaps neither the AI paddle nor a scoring edge. -/
theorem overlapsPlayer_excludes (player ai : Paddle) (b : Ball)
    (hpx : player.x = 50) (hpw : player.width = 20) (hax : ai.x = 730)
    (hr : b.radius = 10) (h : overlapsPlayer player b) :
    ¬ overlapsAI ai b ∧ ¬ b.x - (b.radius : ℚ) < 0 ∧
      ¬ b.x + (b.radius : ℚ) > (SCREEN_WIDTH : ℚ) := by
  unfold overlapsPlayer at h
  unfold overlapsAI
  rw [hpx, hpw, hr] at h
  rw [hax, hr]
  simp only [SCREEN_WIDTH]
  push_cast at h ⊢
  obtain ⟨h1, h2, -, -⟩ := h
  refine ⟨fun h3 => ?_, ?_, ?_⟩
  · linarith [h3.1]
  · linarith
  · linarith

/-- With the paddles at `x = 50` and `x = 730`, a ball of radius 10 that
overlaps the AI paddle overlaps neither the player paddle nor a scoring edge. -/
theorem overlapsAI_excludes (player ai : Paddle) (b : Ball)
    (hpx : player.x = 50) (hpw : player.width = 20) (hax : ai.x = 730) (haw : ai.width = 20)
    (hr : b.radius = 10) (h : overlapsAI ai b) :
    ¬ overlapsPlayer player b ∧ ¬ b.x - (b.radius : ℚ) < 0 ∧
      ¬ b.x + (b.radius : ℚ) > (SCREEN_WIDTH : ℚ) := by
  unfold overlapsAI at h
  unfold overlapsPlayer
  rw [hax, haw, hr] at h
  rw [hpx, hpw, hr]
  simp only [SCREEN_WIDTH]
  push_cast at h ⊢
  obtain ⟨h1, h2, -, -⟩ := h
  refine ⟨fun h3 => ?_, ?_, ?_⟩
  · linarith [h3.1]
  · linarith
  · linarith

theorem updates_nil (ds : List ℚ) (cap : Int) :
    (ds.foldl ParticleSystem.update { particles := [], maxParticles := cap }).particles = [] := by
  induction ds with
  | nil => rfl
  | cons d ds ih =>
    have h : ParticleSystem.update { particles := [], maxParticles := cap } d =
        { particles := [], maxParticles := cap } := by
      unfold ParticleSystem.update
      rw [updateLoop]
      simp
    rw [List.foldl_cons, h, ih]

/-- A lone particle with positive lifetime whose alpha is 255 times its
lifetime, aged by the non-negative delta-times `ds`: it is present as long as
their sum is below its lifetime, with position, lifetime and alpha given by
that sum, and it is gone otherwise. -/
theorem updates_single (ds : List ℚ) (hd : ∀ d ∈ ds, 0 ≤ d) (p : Particle) (cap : Int)
    (hlife : 0 < p.lifetime) (halpha : p.alpha = 255 * p.lifetime) :
    (ds.foldl ParticleSystem.update { particles := [p], maxParticles := cap }).particles =
      if ds.sum < p.lifetime then
        [{ p with x := p.x + p.velX * ds.sum,
                  y := p.y + p.velY * ds.sum,
                  lifetime := p.lifetime - ds.sum,
                  alpha := 255 * (p.lifetime - ds.sum) }]
      else [] := by
  induction ds generalizing p with
  | nil =>
    simp only [List.foldl_nil, List.sum_nil, hlife, if_true, mul_zero, add_zero, sub_zero,
      ← halpha]
  | cons d ds ih =>
    have hd0 : 0 ≤ d := hd d (List.mem_cons_self _ _)
    have hds : ∀ e ∈ ds, 0 ≤ e := fun e he => hd e (List.mem_cons_of_mem _ he)
    have hsum : 0 ≤ ds.sum := List.sum_nonneg hds
    rw [List.foldl_cons, List.sum_cons]
    by_cases hdead : p.lifetime - d ≤ 0
    · have h : ParticleSystem.update { particles := [p], maxParticles := cap } d =
          { particles := [], maxParticles := cap } := by
        have := update_particles { particles := [p], maxParticles := cap } d
        simp only [List.filterMap_cons, List.filterMap_nil, updateParticle, hdead,
          if_true] at this
        unfold ParticleSystem.update at this ⊢
        simp only at this ⊢
        rw [this]
      rw [h, updates_nil, if_neg]
      linarith
    · set q : Particle :=
        { p with x := p.x + p.velX * d, y := p.y + p.velY * d, lifetime := p.lifetime - d,
                 alpha := (p.lifetime - d) / 1 * 255 } with hq
      have h : ParticleSystem.update { particles := [p], maxParticles := cap } d =
          { particles := [q], maxParticles := cap } := by
        have := update_particles { particles := [p], maxParticles := cap } d
        simp only [List.filterMap_cons, List.filterMap_nil, updateParticle, hdead,
          if_false] at this
        unfold ParticleSystem.update at this ⊢
        simp only at this ⊢
        rw [this]
      have hql : 0 < q.lifetime := by
        show 0 < p.lifetime - d
        exact lt_of_not_ge hdead
      have hqa : q.alpha = 255 * q.lifetime := by
        show (p.lifetime - d) / 1 * 255 = 255 * (p.lifetime - d)
        ring
      rw [h, ih hds q hql hqa]
      have hiff : ds.sum < q.lifetime ↔ d + ds.sum < p.lifetime := by
        show ds.sum < p.lifetime - d ↔ _
        constructor <;> intro h' <;> linarith
      by_cases hlt : d + ds.sum < p.lifetime
      · rw [if_pos hlt, if_pos (hiff.2 hlt)]
        simp only [hq, List.cons.injEq, and_true, Particle.mk.injEq, true_and]
        refine ⟨by ring, by ring, by ring, by ring⟩
      · rw [if_neg hlt, if_neg (fun h' => hlt (hiff.1 h'))]

theorem updateLoop_zero (dt : ℚ) (v : List Particle) :
    updateLoop dt v 0 = v.filterMap (updateParticle dt) := by
  have h := updateLoop_append dt v []
  simpa using h

theorem updateLoop_zero_append (dt : ℚ) (u v : List Particle) :
    updateLoop dt (u ++ v) 0 = updateLoop dt u 0 ++ updateLoop dt v 0 := by
  rw [updateLoop_zero, updateLoop_zero, updateLoop_zero, List.filterMap_append]

/-- A sequence of method calls on the vector `A ++ T ++ B` leaves the
concatenation of the three parts computed by `applyOpsSplit`. -/
theorem applyOps_split (L : Libm) (cap : Int) (ops : List ParticleOp)
    (t : List Particle × List Particle × List Particle) :
    applyOps L ops { particles := t.1 ++ t.2.1 ++ t.2.2, maxParticles := cap } =
      { particles := (applyOpsSplit L cap ops t).1 ++ (applyOpsSplit L cap ops t).2.1 ++
          (applyOpsSplit L cap ops t).2.2,
        maxParticles := cap } := by
  induction ops generalizing t with
  | nil => rfl
  | cons op ops ih =>
    show applyOps L ops (applyOp L _ op) = _
    have hstep : applyOp L { particles := t.1 ++ t.2.1 ++ t.2.2, maxParticles := cap } op =
        { particles := (applyOpSplit L cap t op).1 ++ (applyOpSplit L cap t op).2.1 ++
            (applyOpSplit L cap t op).2.2,
          maxParticles := cap } := by
      cases op with
      | emit x y c a b =>
        have hlen : (((t.1 ++ t.2.1 ++ t.2.2).length : Nat) : Int) =
            ((t.1.length + t.2.1.length + t.2.2.length : Nat) : Int) := by
          rw [List.length_append, List.length_append]
        by_cases hfull : ((t.1.length + t.2.1.length + t.2.2.length : Nat) : Int) ≥ cap % 2 ^ 64
        · have e1 : applyOpSplit L cap t (.emit x y c a b) = t := by
            show (if _ then _ else _) = _
            rw [if_pos hfull]
          rw [e1]
          show ParticleSystem.emit L _ x y c a b = _
          unfold ParticleSystem.emit
          dsimp only
          rw [if_pos (by rw [hlen]; exact hfull)]
        · have e1 : applyOpSplit L cap t (.emit x y c a b) =
              (t.1, t.2.1, t.2.2 ++ [newParticle L x y c a b]) := by
            show (if _ then _ else _) = _
            rw [if_neg hfull]
          rw [e1]
          show ParticleSystem.emit L _ x y c a b = _
          unfold ParticleSystem.emit
          dsimp only
          rw [if_neg (by rw [hlen]; exact hfull)]
          simp only [List.append_assoc]
      | update d =>
        show ParticleSystem.update _ d =
          { particles := updateLoop d t.1 0 ++ updateLoop d t.2.1 0 ++ updateLoop d t.2.2 0,
            maxParticles := cap }
        unfold ParticleSystem.update
        dsimp only
        rw [updateLoop_zero_append, updateLoop_zero_append]
    rw [hstep, ih]
    rfl

theorem applyOpsSplit_fst (L : Libm) (cap : Int) (ops : List ParticleOp)
    (t : List Particle × List Particle × List Particle) :
    (applyOpsSplit L cap ops t).1 = agedBy (updateDeltas ops) t.1 ∧
    (applyOpsSplit L cap ops t).2.1 = agedBy (updateDeltas ops) t.2.1 := by
  induction ops generalizing t with
  | nil => exact ⟨rfl, rfl⟩
  | cons op ops ih =>
    show (applyOpsSplit L cap ops (applyOpSplit L cap t op)).1 = _ ∧
      (applyOpsSplit L cap ops (applyOpSplit L cap t op)).2.1 = _
    cases op with
    | emit x y c a b =>
      have e : (applyOpSplit L cap t (.emit x y c a b)).1 = t.1 ∧
          (applyOpSplit L cap t (.emit x y c a b)).2.1 = t.2.1 := by
        have e0 : applyOpSplit L cap t (.emit x y c a b) =
            if ((t.1.length + t.2.1.length + t.2.2.length : Nat) : Int) ≥ cap % 2 ^ 64 then t
            else (t.1, t.2.1, t.2.2 ++ [newParticle L x y c a b]) := rfl
        rw [e0]
        split_ifs <;> exact ⟨rfl, rfl⟩
      rw [(ih _).1, (ih _).2, e.1, e.2]
      exact ⟨rfl, rfl⟩
    | update d =>
      rw [(ih _).1, (ih _).2]
      exact ⟨rfl, rfl⟩

theorem updates_agedBy (ds : List ℚ) (v : List Particle) (cap : Int) :
    (ds.foldl ParticleSystem.update { particles := v, maxParticles := cap }).particles =
      agedBy ds v := by
  induction ds generalizing v with
  | nil => rfl
  | cons d ds ih => exact ih (updateLoop d v 0)

/-- A lone particle with positive lifetime whose alpha is 255 times its
lifetime, aged by non-negative delta-times. -/
theorem agedBy_single (ds : List ℚ) (hd : ∀ d ∈ ds, 0 ≤ d) (p : Particle)
    (hlife : 0 < p.lifetime) (halpha : p.alpha = 255 * p.lifetime) :
    agedBy ds [p] =
      if ds.sum < p.lifetime then
        [{ p with x := p.x + p.velX * ds.sum,
                  y := p.y + p.velY * ds.sum,
                  lifetime := p.lifetime - ds.sum,
                  alpha := 255 * (p.lifetime - ds.sum) }]
      else [] := by
  rw [← updates_agedBy ds [p] 0]
  exact updates_single ds hd p 0 hlife halpha

/-- Subtraction of ticks that do not wrap around. -/
theorem u32sub_of_le (t s : Nat) (hst : s ≤ t) (ht : t < 2 ^ 32) : u32sub t s = t - s := by
  unfold u32sub
  have hs : s < 2 ^ 32 := lt_of_le_of_lt hst ht
  rw [Nat.mod_eq_of_lt ht, Nat.mod_eq_of_lt hs]
  have e : t + 2 ^ 32 - s = (t - s) + 2 ^ 32 := by omega
  rw [e, Nat.add_mod_right, Nat.mod_eq_of_lt]
  omega

theorem beforeScoring_ball_y (L : Libm) (inp : FrameInput) (s : GameState) :
    (beforeScoring L inp s).ball.y = (moveBall s.ball).y := by
  rw [beforeScoring_ball, collideAI_y, collidePlayer_y, bounceWalls_y]

/-- In a frame without a scoring event the ball at the end of the frame is the
ball left by the wall and paddle checks. -/
theorem frame_ball_of_no_score (L : Libm) (inp : FrameInput) (s : GameState)
    (h1 : ¬ aiScores (moveBall s.ball))
    (h2 : ¬ (moveBall s.ball).x + ((moveBall s.ball).radius : ℚ) > (SCREEN_WIDTH : ℚ)) :
    (frame L inp s).ball = (beforeScoring L inp s).ball := by
  have h1s : ¬ (beforeScoring L inp s).ball.x - ((beforeScoring L inp s).ball.radius : ℚ) < 0 :=
    fun h => h1 ((beforeScoring_aiScores L inp s).1 h)
  have h2s : ¬ (beforeScoring L inp s).ball.x + ((beforeScoring L inp s).ball.radius : ℚ) >
      (SCREEN_WIDTH : ℚ) := fun h => h2 ((beforeScoring_right L inp s).1 h)
  rw [frame_ball, checkScoring_none inp _ h1s h2s]

theorem filterMap_updateParticle (dt : ℚ) (v : List Particle) :
    v.filterMap (updateParticle dt) = updateReference dt v := by
  induction v with
  | nil => rfl
  | cons p v ih =>
    unfold updateReference at ih ⊢
    by_cases hdead : p.lifetime - dt ≤ 0
    · have hnone : updateParticle dt p = none := by
        unfold updateParticle
        dsimp only
        rw [if_pos hdead]
      have hf : ¬ (fun q : Particle => decide (q.lifetime - dt > 0)) p = true := by
        simp only [gt_iff_lt, decide_eq_true_eq, not_lt]
        exact hdead
      have e := @List.filter_cons_of_neg Particle (fun q => decide (q.lifetime - dt > 0)) p v hf
      rw [List.filterMap_cons_none hnone, e, ih]
    · have hsome : updateParticle dt p =
          some { p with x := p.x + p.velX * dt, y := p.y + p.velY * dt,
                        lifetime := p.lifetime - dt,
                        alpha := (p.lifetime - dt) / 1 * 255 } := by
        unfold updateParticle
        dsimp only
        rw [if_neg hdead]
      have hf : (fun q : Particle => decide (q.lifetime - dt > 0)) p = true := by
        simp only [gt_iff_lt, decide_eq_true_eq]
        exact lt_of_not_ge hdead
      have halpha : (p.lifetime - dt) / 1 * 255 = 255 * (p.lifetime - dt) := by ring
      have e := @List.filter_cons_of_pos Particle (fun q => decide (q.lifetime - dt > 0)) p v hf
      rw [List.filterMap_cons_some hsome, e, List.map_cons, ih, halpha]

theorem handlePlayerInput_bounds (keyW keyS : Bool) (p : Paddle)
    (hh : p.height = 100) (hsp : p.speed = 5) (h0 : 0 ≤ p.y) (h1 : p.y ≤ 500) :
    0 ≤ (handlePlayerInput keyW keyS p).y ∧ (handlePlayerInput keyW keyS p).y ≤ 500 := by
  have stage1 : ∃ p1 : Paddle, handlePlayerInput keyW keyS p =
      (if keyS = true ∧ p1.y < ((SCREEN_HEIGHT - p1.height : Int) : ℚ) then
        { p1 with y := if p1.y + (p1.speed : ℚ) > ((SCREEN_HEIGHT - p1.height : Int) : ℚ)
                       then ((SCREEN_HEIGHT - p1.height : Int) : ℚ) else p1.y + (p1.speed : ℚ) }
       else p1) ∧ p1.height = 100 ∧ p1.speed = 5 ∧ 0 ≤ p1.y ∧ p1.y ≤ 500 := by
    by_cases c : keyW = true ∧ p.y > 0
    · refine ⟨{ p with y := if p.y - (p.speed : ℚ) < 0 then 0 else p.y - (p.speed : ℚ) },
        ?_, hh, hsp, ?_, ?_⟩
      · unfold handlePlayerInput
        rw [if_pos c]
      · show 0 ≤ (if p.y - (p.speed : ℚ) < 0 then 0 else p.y - (p.speed : ℚ))
        split_ifs with c2
        · exact le_refl _
        · exact not_lt.1 c2
      · show (if p.y - (p.speed : ℚ) < 0 then 0 else p.y - (p.speed : ℚ)) ≤ 500
        rw [hsp]
        split_ifs with c2
        · norm_num
        · push_cast; linarith
    · refine ⟨p, ?_, hh, hsp, h0, h1⟩
      unfold handlePlayerInput
      rw [if_neg c]
  obtain ⟨p1, e, hh1, hsp1, h01, h11⟩ := stage1
  rw [e, hh1, hsp1]
  have e500 : ((SCREEN_HEIGHT - 100 : Int) : ℚ) = 500 := by
    simp only [SCREEN_HEIGHT]; norm_num
  rw [e500]
  split_ifs with c1 c2
  · exact ⟨by norm_num, le_refl _⟩
  · constructor
    · show 0 ≤ p1.y + ((5 : Int) : ℚ)
      push_cast; linarith
    · exact not_lt.1 c2
  · exact ⟨h01, h11⟩

theorem reachable_player_bounds (L : Libm) (s : GameState) (h : Reachable L s) :
    0 ≤ s.player.y ∧ s.player.y ≤ 500 := by
  induction h with
  | init a b t =>
    simp only [initialState, SCREEN_HEIGHT, PADDLE_HEIGHT]
    norm_num
  | step inp s hs ih =>
    have hst := reachable_static L s hs
    rw [frame_player]
    exact handlePlayerInput_bounds _ _ _ hst.player_height hst.player_speed ih.1 ih.2

theorem moveAI_bounds (ai : Paddle) (b : Ball)
    (hh : ai.height = 100) (hsp : ai.speed = 3) (h0 : -3 < ai.y) (h1 : ai.y < 503) :
    -3 < (moveAI ai b).y ∧ (moveAI ai b).y < 503 := by
  unfold moveAI
  rw [hh, hsp]
  have e500 : ((SCREEN_HEIGHT - 100 : Int) : ℚ) = 500 := by
    simp only [SCREEN_HEIGHT]; norm_num
  rw [e500]
  split_ifs with c1 c2
  · constructor
    · show -3 < ai.y + ((3 : Int) : ℚ)
      push_cast; linarith
    · show ai.y + ((3 : Int) : ℚ) < 503
      push_cast; linarith [c1.2]
  · constructor
    · show -3 < ai.y - ((3 : Int) : ℚ)
      push_cast; linarith [c2.2]
    · show ai.y - ((3 : Int) : ℚ) < 503
      push_cast; linarith
  · exact ⟨h0, h1⟩

theorem reachable_ai_bounds (L : Libm) (s : GameState) (h : Reachable L s) :
    -3 < s.ai.y ∧ s.ai.y < 503 := by
  induction h with
  | init a b t =>
    simp only [initialState, SCREEN_HEIGHT, PADDLE_HEIGHT]
    norm_num
  | step inp s hs ih =>
    have hst := reachable_static L s hs
    rw [frame_ai]
    exact moveAI_bounds _ _ hst.ai_height hst.ai_speed ih.1 ih.2

theorem checkScoring_streakInv (inp : FrameInput) (s : GameState) (h : StreakInv s) :
    StreakInv (checkScoring inp s) := by
  obtain ⟨h1, h2, h3, h4, h5⟩ := h
  by_cases c1 : s.ball.x - (s.ball.radius : ℚ) < 0
  · rw [checkScoring_ai inp s c1]
    refine ⟨le_refl _, ?_, Or.inl rfl, ?_, ?_⟩
    · show 0 ≤ s.aiStreak + 1
      omega
    · show (0 : Int) ≤ s.playerScore
      omega
    · show s.aiStreak + 1 ≤ s.aiScore + 1
      omega
  · by_cases c2 : s.ball.x + (s.ball.radius : ℚ) > (SCREEN_WIDTH : ℚ)
    · rw [checkScoring_player inp s c1 c2]
      refine ⟨?_, le_refl _, Or.inr rfl, ?_, ?_⟩
      · show 0 ≤ s.playerStreak + 1
        omega
      · show s.playerStreak + 1 ≤ s.playerScore + 1
        omega
      · show (0 : Int) ≤ s.aiScore
        omega
    · rw [checkScoring_none inp s c1 c2]
      exact ⟨h1, h2, h3, h4, h5⟩

theorem frame_streakInv (L : Libm) (inp : FrameInput) (s : GameState) (h : StreakInv s) :
    StreakInv (frame L inp s) := by
  have hb : StreakInv (beforeScoring L inp s) := ⟨h.1, h.2, h.3, h.4, h.5⟩
  have hc := checkScoring_streakInv inp _ hb
  exact ⟨hc.1, hc.2, hc.3, hc.4, hc.5⟩

theorem reachable_streakInv (L : Libm) (s : GameState) (h : Reachable L s) : StreakInv s := by
  induction h with
  | init a b t =>
    constructor <;> simp [initialState]
  | step inp s _ ih => exact frame_streakInv L inp s ih

theorem checkScoring_ball_congr (inp : FrameInput) (s t : GameState) (h : s.ball = t.ball) :
    (checkScoring inp s).ball = (checkScoring inp t).ball := by
  unfold checkScoring
  rw [h]
  split_ifs <;> first | rfl | exact h

/-- The paddles and the ball after a frame depend only on the paddles and the
ball before it. -/
theorem kinematics_frame (L : Libm) (inp : FrameInput) (s t : GameState)
    (h : kinematics s = kinematics t) :
    kinematics (frame L inp s) = kinematics (frame L inp t) := by
  have hp : s.player = t.player := congrArg Prod.fst h
  have ha : s.ai = t.ai := congrArg (fun k => k.2.1) h
  have hb : s.ball = t.ball := congrArg (fun k => k.2.2) h
  have e : (beforeScoring L inp s).ball = (beforeScoring L inp t).ball := by
    rw [beforeScoring_ball, beforeScoring_ball, hp, ha, hb]
  show ((frame L inp s).player, (frame L inp s).ai, (frame L inp s).ball) =
    ((frame L inp t).player, (frame L inp t).ai, (frame L inp t).ball)
  rw [frame_player, frame_player, frame_ai, frame_ai, frame_ball, frame_ball,
    checkScoring_ball_congr inp _ _ e, hp, ha, hb]

theorem kinematics_run (L : Libm) (inps : List FrameInput) (s t : GameState)
    (h : kinematics s = kinematics t) :
    kinematics (run L inps s) = kinematics (run L inps t) := by
  induction inps generalizing s t with
  | nil => exact h
  | cons inp rest ih => exact ih _ _ (kinematics_frame L inp s t h)

theorem kinematics_withKinematics (k : Paddle × Paddle × Ball) :
    kinematics (withKinematics k) = k := rfl

theorem ai_y_of_kinematics (s : GameState) (k : Paddle × Paddle × Ball)
    (h : kinematics s = k) : s.ai.y = k.2.1.y :=
  congrArg (fun k : Paddle × Paddle × Ball => k.2.1.y) h

theorem idle_stage1 :
    kinematics (run demoLibm (List.replicate 75 idleInput) (initialState 1 0 0)) =
      idleAfter75 := by decide!

theorem idle_stage2 :
    kinematics (run demoLibm (List.replicate 75 idleInput) (withKinematics idleAfter75)) =
      idleAfter150 := by decide!

theorem idle_stage3 :
    kinematics (run demoLibm (List.replicate 75 idleInput) (withKinematics idleAfter150)) =
      idleAfter225 := by decide!

theorem aiOvershoot_kinematics : kinematics aiOvershoot = idleAfter225 := by
  unfold aiOvershoot
  rw [kinematics_run demoLibm _ _ (withKinematics idleAfter150), idle_stage3]
  rw [kinematics_withKinematics,
    kinematics_run demoLibm _ _ (withKinematics idleAfter75), idle_stage2]
  rw [kinematics_withKinematics, idle_stage1]

theorem hitsWall_iff (b : Ball) (hr : b.radius = 10) (k : Int) (hy : b.y = 5 * (k : ℚ)) :
    hitsWall b ↔ k ≤ 2 ∨ 118 ≤ k := by
  unfold hitsWall
  rw [hr, hy]
  simp only [SCREEN_HEIGHT]
  push_cast
  constructor
  · intro h
    rcases h with h | h
    · left
      have : (k : ℚ) ≤ 2 := by linarith
      exact_mod_cast this
    · right
      have : (118 : ℚ) ≤ (k : ℚ) := by linarith
      exact_mod_cast this
  · intro h
    rcases h with h | h
    · left
      have : (k : ℚ) ≤ 2 := by exact_mod_cast h
      linarith
    · right
      have : (118 : ℚ) ≤ (k : ℚ) := by exact_mod_cast h
      linarith

theorem bounceWalls_velY_cases (c : Ball) :
    (hitsWall c → (bounceWalls c).velY = -c.velY) ∧
    (¬ hitsWall c → (bounceWalls c).velY = c.velY) := by
  unfold bounceWalls
  constructor
  · intro h; rw [if_pos h]
  · intro h; rw [if_neg h]

/-- One wall check after one move keeps `BallYInv`, and a ball that touched a
wall does not touch a wall after its next move. -/
theorem ballYInv_step (b : Ball) (h : BallYInv b) :
    BallYInv (bounceWalls (moveBall b)) ∧
    (hitsWall (moveBall b) → ¬ hitsWall (moveBall (bounceWalls (moveBall b)))) := by
  obtain ⟨hr, k, hy, h2, h118, hv, hlo, hhi⟩ := h
  have hr1 : (moveBall b).radius = 10 := hr
  have hr2 : (bounceWalls (moveBall b)).radius = 10 := by rw [bounceWalls_radius]; exact hr
  have hy2 : (bounceWalls (moveBall b)).y = b.y + b.velY := by rw [bounceWalls_y]; rfl
  have hr3 : (moveBall (bounceWalls (moveBall b))).radius = 10 := hr2
  have hy3 : (moveBall (bounceWalls (moveBall b))).y =
      b.y + b.velY + (bounceWalls (moveBall b)).velY := by
    show (bounceWalls (moveBall b)).y + _ = _
    rw [hy2]
  have hbc := bounceWalls_velY_cases (moveBall b)
  have hmv : (moveBall b).velY = b.velY := rfl
  rcases hv with hv | hv
  · have hk : k ≤ 117 := by
      by_contra hc
      have : k = 118 := by omega
      have := hhi this
      rw [hv] at this
      norm_num at this
    have hy1 : (moveBall b).y = 5 * ((k + 1 : Int) : ℚ) := by
      show b.y + b.velY = _
      rw [hy, hv]; push_cast; ring
    have hw := hitsWall_iff (moveBall b) hr1 (k + 1) hy1
    by_cases hit : hitsWall (moveBall b)
    · have hk117 : k = 117 := by
        rcases hw.1 hit with h | h <;> omega
      have hvy : (bounceWalls (moveBall b)).velY = -5 := by
        rw [hbc.1 hit, hmv, hv]
      refine ⟨⟨hr2, 118, ?_, by norm_num, le_refl _, Or.inr hvy, ?_, fun _ => hvy⟩, ?_⟩
      · rw [hy2, hy, hv, hk117]; norm_num
      · intro h; norm_num at h
      · intro _
        have hy3' : (moveBall (bounceWalls (moveBall b))).y = 5 * ((117 : Int) : ℚ) := by
          rw [hy3, hvy, hy, hv, hk117]; norm_num
        rw [hitsWall_iff _ hr3 117 hy3']
        omega
    · have hk3 : ¬ (k + 1 ≤ 2 ∨ 118 ≤ k + 1) := fun h => hit (hw.2 h)
      have hvy : (bounceWalls (moveBall b)).velY = 5 := by
        rw [hbc.2 hit, hmv, hv]
      refine ⟨⟨hr2, k + 1, ?_, by omega, by omega, Or.inl hvy, fun _ => hvy, ?_⟩, ?_⟩
      · rw [hy2, hy, hv]; push_cast; ring
      · intro h; omega
      · intro h; exact absurd h hit
  · have hk : 3 ≤ k := by
      by_contra hc
      have : k = 2 := by omega
      have := hlo this
      rw [hv] at this
      norm_num at this
    have hy1 : (moveBall b).y = 5 * ((k - 1 : Int) : ℚ) := by
      show b.y + b.velY = _
      rw [hy, hv]; push_cast; ring
    have hw := hitsWall_iff (moveBall b) hr1 (k - 1) hy1
    by_cases hit : hitsWall (moveBall b)
    · have hk3 : k = 3 := by
        rcases hw.1 hit with h | h <;> omega
      have hvy : (bounceWalls (moveBall b)).velY = 5 := by
        rw [hbc.1 hit, hmv, hv]; norm_num
      refine ⟨⟨hr2, 2, ?_, le_refl _, by norm_num, Or.inl hvy, fun _ => hvy, ?_⟩, ?_⟩
      · rw [hy2, hy, hv, hk3]; norm_num
      · intro h; norm_num at h
      · intro _
        have hy3' : (moveBall (bounceWalls (moveBall b))).y = 5 * ((3 : Int) : ℚ) := by
          rw [hy3, hvy, hy, hv, hk3]; norm_num
        rw [hitsWall_iff _ hr3 3 hy3']
        omega
    · have hk3 : ¬ (k - 1 ≤ 2 ∨ 118 ≤ k - 1) := fun h => hit (hw.2 h)
      have hvy : (bounceWalls (moveBall b)).velY = -5 := by
        rw [hbc.2 hit, hmv, hv]
      refine ⟨⟨hr2, k - 1, ?_, by omega, by omega, Or.inr hvy, ?_, fun _ => hvy⟩, ?_⟩
      · rw [hy2, hy, hv]; push_cast; ring
      · intro h; omega
      · intro h; exact absurd h hit

theorem ballYInv_congr (b c : Ball) (hy : c.y = b.y) (hv : c.velY = b.velY)
    (hr : c.radius = b.radius) (h : BallYInv b) : BallYInv c := by
  unfold BallYInv at h ⊢
  rw [hy, hv, hr]
  exact h

theorem hitsWall_moveBall_congr (b c : Ball) (hy : c.y = b.y) (hv : c.velY = b.velY)
    (hr : c.radius = b.radius) : hitsWall (moveBall c) ↔ hitsWall (moveBall b) := by
  unfold hitsWall moveBall
  simp only [hy, hv, hr]

theorem resetBall_ballYInv (b : Ball) (d1 d2 : Nat) (hr : b.radius = 10) :
    BallYInv (resetBall b d1 d2) ∧ ¬ hitsWall (moveBall (resetBall b d1 d2)) := by
  have hy : (resetBall b d1 d2).y = 5 * ((60 : Int) : ℚ) := by
    show (SCREEN_HEIGHT : ℚ) / 2 = _
    simp only [SCREEN_HEIGHT]; norm_num
  have hv : (resetBall b d1 d2).velY = 5 ∨ (resetBall b d1 d2).velY = -5 :=
    randomDirection_cases d2
  have hrr : (resetBall b d1 d2).radius = 10 := hr
  refine ⟨⟨hrr, 60, hy, by norm_num, by norm_num, hv, ?_, ?_⟩, ?_⟩
  · intro h; norm_num at h
  · intro h; norm_num at h
  · have hr1 : (moveBall (resetBall b d1 d2)).radius = 10 := hrr
    rcases hv with hv | hv
    · have hy1 : (moveBall (resetBall b d1 d2)).y = 5 * ((61 : Int) : ℚ) := by
        show (resetBall b d1 d2).y + (resetBall b d1 d2).velY = _
        rw [hy, hv]; norm_num
      rw [hitsWall_iff _ hr1 61 hy1]; omega
    · have hy1 : (moveBall (resetBall b d1 d2)).y = 5 * ((59 : Int) : ℚ) := by
        show (resetBall b d1 d2).y + (resetBall b d1 d2).velY = _
        rw [hy, hv]; norm_num
      rw [hitsWall_iff _ hr1 59 hy1]; omega

theorem beforeScoring_ball_velY (L : Libm) (inp : FrameInput) (s : GameState) :
    (beforeScoring L inp s).ball.velY = (bounceWalls (moveBall s.ball)).velY := by
  rw [beforeScoring_ball, collideAI_velY, collidePlayer_velY]

/-- The loop body keeps `BallYInv`, and a frame in which the ball touched a
wall is followed by a frame in which it does not. -/
theorem frame_ballYInv (L : Libm) (inp : FrameInput) (s : GameState) (h : BallYInv s.ball) :
    BallYInv (frame L inp s).ball ∧
    (hitsWall (moveBall s.ball) → ¬ hitsWall (moveBall (frame L inp s).ball)) := by
  have hstep := ballYInv_step s.ball h
  have hy : (beforeScoring L inp s).ball.y = (bounceWalls (moveBall s.ball)).y := by
    rw [beforeScoring_ball_y, bounceWalls_y]
  have hv := beforeScoring_ball_velY L inp s
  have hr : (beforeScoring L inp s).ball.radius = (bounceWalls (moveBall s.ball)).radius := by
    rw [beforeScoring_ball_radius, bounceWalls_radius]
  rw [frame_ball]
  rcases checkScoring_ball_cases inp (beforeScoring L inp s) with e | e <;> rw [e]
  · refine ⟨ballYInv_congr _ _ hy hv hr hstep.1, fun hit => ?_⟩
    rw [hitsWall_moveBall_congr _ _ hy hv hr]
    exact hstep.2 hit
  · have hr10 : (beforeScoring L inp s).ball.radius = 10 := by
      rw [hr]; exact hstep.1.1
    have := resetBall_ballYInv (beforeScoring L inp s).ball inp.velXDraw inp.velYDraw hr10
    exact ⟨this.1, fun _ => this.2⟩

theorem reachable_ballYInv (L : Libm) (s : GameState) (h : Reachable L s) :
    BallYInv s.ball := by
  induction h with
  | init a b t =>
    refine ⟨rfl, 60, ?_, by norm_num, by norm_num, randomDirection_cases b, ?_, ?_⟩
    · show (SCREEN_HEIGHT : ℚ) / 2 = _
      simp only [SCREEN_HEIGHT]; norm_num
    · intro h; norm_num at h
    · intro h; norm_num at h
  | step inp s _ ih => exact (frame_ballYInv L inp s ih).1

theorem ballYInv_bounds (b : Ball) (h : BallYInv b) : 10 ≤ b.y ∧ b.y ≤ 590 := by
  obtain ⟨-, k, hy, h2, h118, -, -, -⟩ := h
  rw [hy]
  have a : (2 : ℚ) ≤ (k : ℚ) := by exact_mod_cast h2
  have c : (k : ℚ) ≤ 118 := by exact_mod_cast h118
  constructor <;> linarith

theorem leftExit_aiScores : aiScores (moveBall leftExitState.ball) := by
  simp [aiScores, moveBall, leftExitState]

theorem rightExit_playerScores : playerScores (moveBall rightExitState.ball) := by
  simp [playerScores, aiScores, moveBall, rightExitState, SCREEN_WIDTH]
  norm_num

theorem getStreakMessage_ne_empty_iff (n : Int) : getStreakMessage n ≠ "" ↔ 2 ≤ n := by
  unfold getStreakMessage
  constructor
  · intro h
    by_contra hn
    have h2 : ¬ n = 2 := by omega
    have h3 : ¬ n = 3 := by omega
    have h4 : ¬ n = 4 := by omega
    have h5 : ¬ n ≥ 5 := by omega
    simp [h2, h3, h4, h5] at h
  · intro h
    split_ifs <;> first | decide | omega

/-! ## Streak messages -/

/-- C1: `getStreakMessage` returns a value for every integer: "Double Kill!" at
2, "Triple Kill!" at 3, "Ultra Kill!" at 4, "Holy Shit!" from 5 on, and the
empty string at every integer up to 1. -/
theorem getStreakMessage_exact (n : Int) :
    (n = 2 → getStreakMessage n = "Double Kill!") ∧
    (n = 3 → getStreakMessage n = "Triple Kill!") ∧
    (n = 4 → getStreakMessage n = "Ultra Kill!") ∧
    (5 ≤ n → getStreakMessage n = "Holy Shit!") ∧
    (n ≤ 1 → getStreakMessage n = "") := by
  unfold getStreakMessage
  refine ⟨?_, ?_, ?_, ?_, ?_⟩
  · intro h; simp [h]
  · intro h; simp [h]
  · intro h; simp [h]
  · intro h
    have h2 : ¬ n = 2 := by omega
    have h3 : ¬ n = 3 := by omega
    have h4 : ¬ n = 4 := by omega
    simp [h2, h3, h4, h]
  · intro h
    have h2 : ¬ n = 2 := by omega
    have h3 : ¬ n = 3 := by omega
    have h4 : ¬ n = 4 := by omega
    have h5 : ¬ 5 ≤ n := by omega
    simp [h2, h3, h4, h5]

/-- Witness of C1 at the inputs 0, 1, 2, 3, 4, 5, 6, 100 and -7. -/
theorem getStreakMessage_exact_witness :
    getStreakMessage 0 = "" ∧ getStreakMessage 1 = "" ∧ getStreakMessage (-7) = "" ∧
    getStreakMessage 2 = "Double Kill!" ∧ getStreakMessage 3 = "Triple Kill!" ∧
    getStreakMessage 4 = "Ultra Kill!" ∧ getStreakMessage 5 = "Holy Shit!" ∧
    getStreakMessage 6 = "Holy Shit!" ∧ getStreakMessage 100 = "Holy Shit!" :=
  ⟨(getStreakMessage_exact 0).2.2.2.2 (by decide),
   (getStreakMessage_exact 1).2.2.2.2 (by decide),
   (getStreakMessage_exact (-7)).2.2.2.2 (by decide),
   (getStreakMessage_exact 2).1 rfl,
   (getStreakMessage_exact 3).2.1 rfl,
   (getStreakMessage_exact 4).2.2.1 rfl,
   (getStreakMessage_exact 5).2.2.2.1 (by decide),
   (getStreakMessage_exact 6).2.2.2.1 (by decide),
   (getStreakMessage_exact 100).2.2.2.1 (by decide)⟩

/-! ## Scoring -/

/-- C2: in every frame in which a scoring event occurs (the moved ball's left
edge is below 0, so the AI scores, or otherwise its right edge is beyond
`SCREEN_WIDTH`, so the player scores), the frame adds exactly 1 to the scorer's
score, adds exactly 1 to the scorer's streak and leaves the other side's streak
at exactly 0. -/
theorem scoring_updates_counters (L : Libm) (inp : FrameInput) (s : GameState) :
    (aiScores (moveBall s.ball) →
      (frame L inp s).aiScore = s.aiScore + 1 ∧
      (frame L inp s).aiStreak = s.aiStreak + 1 ∧
      (frame L inp s).playerStreak = 0) ∧
    (playerScores (moveBall s.ball) →
      (frame L inp s).playerScore = s.playerScore + 1 ∧
      (frame L inp s).playerStreak = s.playerStreak + 1 ∧
      (frame L inp s).aiStreak = 0) := by
  constructor
  · intro h
    have h1 := (beforeScoring_aiScores L inp s).2 h
    refine ⟨?_, ?_, ?_⟩ <;> simp only [frame, checkScoring_ai inp _ h1] <;> rfl
  · intro h
    have h1 : ¬ _ := fun h1 => h.1 ((beforeScoring_aiScores L inp s).1 h1)
    have h2 := (beforeScoring_right L inp s).2 h.2
    refine ⟨?_, ?_, ?_⟩ <;> simp only [frame, checkScoring_player inp _ h1 h2] <;> rfl

/-- Witness of C2: the AI scores from `leftExitState` (AI 0 -> 1, its streak
0 -> 1, the player's streak 2 -> 0) and the player scores from
`rightExitState` (player 1 -> 2, its streak 1 -> 2, the AI's streak at 0). -/
theorem scoring_updates_counters_witness :
    (aiScores (moveBall leftExitState.ball) ∧
      (frame demoLibm idleInput leftExitState).aiScore = 1 ∧
      (frame demoLibm idleInput leftExitState).aiStreak = 1 ∧
      (frame demoLibm idleInput leftExitState).playerStreak = 0) ∧
    (playerScores (moveBall rightExitState.ball) ∧
      (frame demoLibm idleInput rightExitState).playerScore = 2 ∧
      (frame demoLibm idleInput rightExitState).playerStreak = 2 ∧
      (frame demoLibm idleInput rightExitState).aiStreak = 0) :=
  ⟨⟨leftExit_aiScores,
    (scoring_updates_counters demoLibm idleInput leftExitState).1 leftExit_aiScores⟩,
   ⟨rightExit_playerScores,
    (scoring_updates_counters demoLibm idleInput rightExitState).2 rightExit_playerScores⟩⟩

/-- C3: in every frame in which a scoring event occurs, whichever side scores
and whatever the two draws are, the ball ends the frame at the screen centre
`(SCREEN_WIDTH / 2, SCREEN_HEIGHT / 2) = (400, 300)`, and each velocity
component is `+BALL_SPEED = 5` when its draw is even and `-BALL_SPEED = -5`
when its draw is odd. -/
theorem scoring_resets_ball (L : Libm) (inp : FrameInput) (s : GameState)
    (h : aiScores (moveBall s.ball) ∨ playerScores (moveBall s.ball)) :
    (frame L inp s).ball.x = (SCREEN_WIDTH : ℚ) / 2 ∧
    (frame L inp s).ball.y = (SCREEN_HEIGHT : ℚ) / 2 ∧
    (frame L inp s).ball.x = 400 ∧
    (frame L inp s).ball.y = 300 ∧
    (frame L inp s).ball.velX = (if inp.velXDraw % 2 = 0 then (BALL_SPEED : ℚ) else -(BALL_SPEED : ℚ)) ∧
    (frame L inp s).ball.velY = (if inp.velYDraw % 2 = 0 then (BALL_SPEED : ℚ) else -(BALL_SPEED : ℚ)) ∧
    (frame L inp s).ball.velX = (if inp.velXDraw % 2 = 0 then 5 else -5) ∧
    (frame L inp s).ball.velY = (if inp.velYDraw % 2 = 0 then 5 else -5) := by
  have hball : (frame L inp s).ball =
      resetBall (beforeScoring L inp s).ball inp.velXDraw inp.velYDraw := by
    rcases h with h | h
    · have h1 := (beforeScoring_aiScores L inp s).2 h
      simp only [frame, checkScoring_ai inp _ h1]
    · have h1 : ¬ _ := fun h1 => h.1 ((beforeScoring_aiScores L inp s).1 h1)
      have h2 := (beforeScoring_right L inp s).2 h.2
      simp only [frame, checkScoring_player inp _ h1 h2]
  rw [hball]
  simp only [resetBall, randomDirection, SCREEN_WIDTH, SCREEN_HEIGHT, BALL_SPEED]
  refine ⟨?_, ?_, ?_, ?_, ?_, ?_, ?_, ?_⟩ <;>
    first
    | trivial
    | norm_num

/-- Witness of C3: from `leftExitState` the ball moves to `(5, 300)`, its left
edge `5 - 10 = -5` is below 0, the AI scores and the ball is reset to
`(400, 300)`; the draws 3 and 4 give the velocity `(-5, 5)`. -/
theorem scoring_resets_ball_witness :
    ((moveBall leftExitState.ball).x = 5 ∧ (moveBall leftExitState.ball).y = 300 ∧
      leftExitState.ball.radius = 10 ∧ aiScores (moveBall leftExitState.ball)) ∧
    (frame demoLibm idleInput leftExitState).ball.x = 400 ∧
    (frame demoLibm idleInput leftExitState).ball.y = 300 ∧
    (frame demoLibm idleInput leftExitState).ball.velX = -5 ∧
    (frame demoLibm idleInput leftExitState).ball.velY = 5 :=
  have h := scoring_resets_ball demoLibm idleInput leftExitState (Or.inl leftExit_aiScores)
  ⟨⟨by simp [moveBall, leftExitState]; norm_num, by simp [moveBall, leftExitState]; norm_num, rfl,
      leftExit_aiScores⟩,
    h.2.2.1, h.2.2.2.1, h.2.2.2.2.2.2.1, h.2.2.2.2.2.2.2⟩

/-- C10: at every scoring event, with `n` the scorer's streak after the
increment: when `getStreakMessage n` is not empty (exactly when `2 ≤ n`) the
active message becomes `getStreakMessage n` and its activation time becomes the
tick read at that moment, whatever message was active before; when
`getStreakMessage n` is empty the active message and its activation time are
left as they were. -/
theorem streak_message_last_writer_wins (L : Libm) (inp : FrameInput) (s : GameState) :
    (aiScores (moveBall s.ball) →
      (getStreakMessage (s.aiStreak + 1) ≠ "" ↔ 2 ≤ s.aiStreak + 1) ∧
      (getStreakMessage (s.aiStreak + 1) ≠ "" →
        (checkScoring inp (beforeScoring L inp s)).currentStreakMessage =
          getStreakMessage (s.aiStreak + 1) ∧
        (checkScoring inp (beforeScoring L inp s)).streakMessageStartTime = inp.scoreTick) ∧
      (getStreakMessage (s.aiStreak + 1) = "" →
        (checkScoring inp (beforeScoring L inp s)).currentStreakMessage =
          s.currentStreakMessage ∧
        (checkScoring inp (beforeScoring L inp s)).streakMessageStartTime =
          s.streakMessageStartTime)) ∧
    (playerScores (moveBall s.ball) →
      (getStreakMessage (s.playerStreak + 1) ≠ "" ↔ 2 ≤ s.playerStreak + 1) ∧
      (getStreakMessage (s.playerStreak + 1) ≠ "" →
        (checkScoring inp (beforeScoring L inp s)).currentStreakMessage =
          getStreakMessage (s.playerStreak + 1) ∧
        (checkScoring inp (beforeScoring L inp s)).streakMessageStartTime = inp.scoreTick) ∧
      (getStreakMessage (s.playerStreak + 1) = "" →
        (checkScoring inp (beforeScoring L inp s)).currentStreakMessage =
          s.currentStreakMessage ∧
        (checkScoring inp (beforeScoring L inp s)).streakMessageStartTime =
          s.streakMessageStartTime)) := by
  constructor
  · intro h
    have h1 := (beforeScoring_aiScores L inp s).2 h
    have e1 : (beforeScoring L inp s).aiStreak = s.aiStreak := rfl
    have e2 : (beforeScoring L inp s).currentStreakMessage = s.currentStreakMessage := rfl
    have e3 : (beforeScoring L inp s).streakMessageStartTime = s.streakMessageStartTime := rfl
    refine ⟨getStreakMessage_ne_empty_iff _, ?_, ?_⟩
    · intro hm
      simp only [checkScoring_ai inp _ h1, e1, if_pos hm, and_self]
    · intro hm
      simp only [checkScoring_ai inp _ h1, e1, e2, e3, hm, ne_eq, not_true_eq_false,
        if_false, and_self]
  · intro h
    have h1 : ¬ _ := fun h1 => h.1 ((beforeScoring_aiScores L inp s).1 h1)
    have h2 := (beforeScoring_right L inp s).2 h.2
    have e1 : (beforeScoring L inp s).playerStreak = s.playerStreak := rfl
    have e2 : (beforeScoring L inp s).currentStreakMessage = s.currentStreakMessage := rfl
    have e3 : (beforeScoring L inp s).streakMessageStartTime = s.streakMessageStartTime := rfl
    refine ⟨getStreakMessage_ne_empty_iff _, ?_, ?_⟩
    · intro hm
      simp only [checkScoring_player inp _ h1 h2, e1, if_pos hm, and_self]
    · intro hm
      simp only [checkScoring_player inp _ h1 h2, e1, e2, e3, hm, ne_eq, not_true_eq_false,
        if_false, and_self]

/-- Witness of C10: from `leftExitState` the AI scores with its streak going
0 -> 1; the message produced is empty and the player's "Double Kill!" recorded
at tick 1000 is not overwritten. From `rightExitState` the player scores with
its streak going 1 -> 2, and "Double Kill!" is recorded at tick 1500. -/
theorem streak_message_last_writer_wins_witness :
    (aiScores (moveBall leftExitState.ball) ∧
      getStreakMessage (leftExitState.aiStreak + 1) = "" ∧
      (checkScoring idleInput (beforeScoring demoLibm idleInput leftExitState)).currentStreakMessage
        = "Double Kill!" ∧
      (checkScoring idleInput (beforeScoring demoLibm idleInput leftExitState)).streakMessageStartTime
        = 1000) ∧
    (playerScores (moveBall rightExitState.ball) ∧
      getStreakMessage (rightExitState.playerStreak + 1) ≠ "" ∧
      (checkScoring idleInput (beforeScoring demoLibm idleInput rightExitState)).currentStreakMessage
        = "Double Kill!" ∧
      (checkScoring idleInput (beforeScoring demoLibm idleInput rightExitState)).streakMessageStartTime
        = 1500) :=
  ⟨⟨leftExit_aiScores, by decide,
    ((streak_message_last_writer_wins demoLibm idleInput leftExitState).1
      leftExit_aiScores).2.2 (by decide)⟩,
   ⟨rightExit_playerScores, by decide,
    ((streak_message_last_writer_wins demoLibm idleInput rightExitState).2
      rightExit_playerScores).2.1 (by decide)⟩⟩

/-! ## Paddle collisions and ball speed -/

/-- C4: from every reachable state, a frame in which the moved ball's bounding
square overlaps the player paddle's rectangle ends with the horizontal velocity
`+BALL_SPEED`, and a frame in which it overlaps the AI paddle's rectangle ends
with the horizontal velocity `-BALL_SPEED`; in both cases the magnitude is the
one the frame started with and the vertical velocity is the one left by the
wall check. -/
theorem paddle_collision_velocity (L : Libm) (inp : FrameInput) (s : GameState)
    (hs : Reachable L s) :
    (overlapsPlayer (handlePlayerInput inp.keyW inp.keyS s.player) (moveBall s.ball) →
      (frame L inp s).ball.velX = (BALL_SPEED : ℚ) ∧
      |(frame L inp s).ball.velX| = |s.ball.velX| ∧
      (frame L inp s).ball.velY = (bounceWalls (moveBall s.ball)).velY) ∧
    (overlapsAI (moveAI s.ai s.ball) (moveBall s.ball) →
      (frame L inp s).ball.velX = -(BALL_SPEED : ℚ) ∧
      |(frame L inp s).ball.velX| = |s.ball.velX| ∧
      (frame L inp s).ball.velY = (bounceWalls (moveBall s.ball)).velY) := by
  have hst := reachable_static L s hs
  have hv := (reachable_speed L s hs).1
  have hP := handlePlayerInput_static inp.keyW inp.keyS s.player
  have hA := moveAI_static s.ai s.ball
  have hpx : (handlePlayerInput inp.keyW inp.keyS s.player).x = 50 := by
    rw [hP.1, hst.player_x]
  have hpw : (handlePlayerInput inp.keyW inp.keyS s.player).width = 20 := by
    rw [hP.2.1, hst.player_width]
  have hax : (moveAI s.ai s.ball).x = 730 := by rw [hA.1, hst.ai_x]
  have haw : (moveAI s.ai s.ball).width = 20 := by rw [hA.2.1, hst.ai_width]
  have hr : (moveBall s.ball).radius = 10 := hst.ball_radius
  have hb5 : (BALL_SPEED : ℚ) = 5 := by simp [BALL_SPEED]
  set P := handlePlayerInput inp.keyW inp.keyS s.player with hPdef
  set A := moveAI s.ai s.ball with hAdef
  set b1 := bounceWalls (moveBall s.ball) with hb1
  have hb1x : b1.x = (moveBall s.ball).x := bounceWalls_x _
  have hb1y : b1.y = (moveBall s.ball).y := bounceWalls_y _
  have hb1r : b1.radius = (moveBall s.ball).radius := bounceWalls_radius _
  have hb1v : b1.velX = s.ball.velX := bounceWalls_velX _
  have hbs : (beforeScoring L inp s).ball = collideAI A (collidePlayer P b1) := rfl
  constructor
  · intro h
    obtain ⟨hnA, hn1, hn2⟩ := overlapsPlayer_excludes P A _ hpx hpw hax hr h
    have h1 : overlapsPlayer P b1 := (overlapsPlayer_congr P _ b1 hb1x hb1y hb1r).2 h
    have e2 : collidePlayer P b1 = { b1 with velX := |b1.velX| } := by
      unfold collidePlayer; rw [if_pos h1]
    have hnA2 : ¬ overlapsAI A (collidePlayer P b1) := by
      rw [overlapsAI_congr A (moveBall s.ball) _ (by rw [collidePlayer_x, hb1x])
        (by rw [collidePlayer_y, hb1y]) (by rw [collidePlayer_radius, hb1r])]
      exact hnA
    have e3 : collideAI A (collidePlayer P b1) = collidePlayer P b1 := by
      unfold collideAI; rw [if_neg hnA2]
    have hn1s : ¬ (beforeScoring L inp s).ball.x - ((beforeScoring L inp s).ball.radius : ℚ) < 0 := by
      rw [beforeScoring_ball_x, beforeScoring_ball_radius]; exact hn1
    have hn2s : ¬ (beforeScoring L inp s).ball.x + ((beforeScoring L inp s).ball.radius : ℚ) >
        (SCREEN_WIDTH : ℚ) := by
      rw [beforeScoring_ball_x, beforeScoring_ball_radius]; exact hn2
    have e4 : (frame L inp s).ball = { b1 with velX := |b1.velX| } := by
      rw [frame_ball, checkScoring_none inp _ hn1s hn2s, hbs, e3, e2]
    rw [e4]
    refine ⟨?_, ?_, rfl⟩
    · show |b1.velX| = _
      rw [hb1v, hv, hb5]
    · show |(|b1.velX|)| = _
      rw [abs_abs, hb1v]
  · intro h
    obtain ⟨hnP, hn1, hn2⟩ := overlapsAI_excludes P A _ hpx hpw hax haw hr h
    have hnP1 : ¬ overlapsPlayer P b1 := fun h1 =>
      hnP ((overlapsPlayer_congr P _ b1 hb1x hb1y hb1r).1 h1)
    have e2 : collidePlayer P b1 = b1 := by
      unfold collidePlayer; rw [if_neg hnP1]
    have h2 : overlapsAI A b1 := (overlapsAI_congr A _ b1 hb1x hb1y hb1r).2 h
    have e3 : collideAI A b1 = { b1 with velX := -|b1.velX| } := by
      unfold collideAI; rw [if_pos h2]
    have hn1s : ¬ (beforeScoring L inp s).ball.x - ((beforeScoring L inp s).ball.radius : ℚ) < 0 := by
      rw [beforeScoring_ball_x, beforeScoring_ball_radius]; exact hn1
    have hn2s : ¬ (beforeScoring L inp s).ball.x + ((beforeScoring L inp s).ball.radius : ℚ) >
        (SCREEN_WIDTH : ℚ) := by
      rw [beforeScoring_ball_x, beforeScoring_ball_radius]; exact hn2
    have e4 : (frame L inp s).ball = { b1 with velX := -|b1.velX| } := by
      rw [frame_ball, checkScoring_none inp _ hn1s hn2s, hbs, e2, e3]
    rw [e4]
    refine ⟨?_, ?_, rfl⟩
    · show -|b1.velX| = _
      rw [hb1v, hv, hb5]
    · show |(-|b1.velX|)| = _
      rw [abs_neg, abs_abs, hb1v]

/-- Witness of C4: `beforePlayerHit` and `beforeAIHit` are reachable; in the
next frame the ball overlaps the player paddle, respectively the AI paddle,
and leaves with horizontal velocity 5, respectively -5. -/
theorem paddle_collision_velocity_witness :
    (Reachable demoLibm beforePlayerHit ∧
      beforePlayerHit.ball.velX = -5 ∧
      overlapsPlayer (handlePlayerInput true false beforePlayerHit.player)
        (moveBall beforePlayerHit.ball) ∧
      (frame demoLibm holdWInput beforePlayerHit).ball.velX = 5) ∧
    (Reachable demoLibm beforeAIHit ∧
      beforeAIHit.ball.velX = 5 ∧
      overlapsAI (moveAI beforeAIHit.ai beforeAIHit.ball) (moveBall beforeAIHit.ball) ∧
      (frame demoLibm idleInput beforeAIHit).ball.velX = -5) :=
  have r1 : Reachable demoLibm beforePlayerHit := reachable_run _ _ _ (Reachable.init 1 1 0)
  have r2 : Reachable demoLibm beforeAIHit := reachable_run _ _ _ (Reachable.init 0 0 0)
  have o1 : overlapsPlayer (handlePlayerInput true false beforePlayerHit.player)
      (moveBall beforePlayerHit.ball) := by decide!
  have o2 : overlapsAI (moveAI beforeAIHit.ai beforeAIHit.ball) (moveBall beforeAIHit.ball) := by
    decide!
  ⟨⟨r1, by decide!, o1,
    ((paddle_collision_velocity demoLibm holdWInput beforePlayerHit r1).1 o1).1.trans
      (by simp [BALL_SPEED])⟩,
   ⟨r2, by decide!, o2,
    ((paddle_collision_velocity demoLibm idleInput beforeAIHit r2).2 o2).1.trans
      (by simp [BALL_SPEED])⟩⟩

/-- C5: in every reachable state both velocity components of the ball have
magnitude exactly `BALL_SPEED`; and none of the operations on the velocity
(wall bounce, paddle collisions, score reset) changes a magnitude: the bounce
and the paddle checks keep `|velX|` and `|velY|`, the reset sets both to
`BALL_SPEED`. -/
theorem ball_speed_invariant (L : Libm) (s : GameState) (hs : Reachable L s) :
    (|s.ball.velX| = (BALL_SPEED : ℚ) ∧ |s.ball.velY| = (BALL_SPEED : ℚ)) ∧
    (∀ b : Ball, |(bounceWalls b).velX| = |b.velX| ∧ |(bounceWalls b).velY| = |b.velY|) ∧
    (∀ (p : Paddle) (b : Ball),
      |(collidePlayer p b).velX| = |b.velX| ∧ |(collidePlayer p b).velY| = |b.velY|) ∧
    (∀ (p : Paddle) (b : Ball),
      |(collideAI p b).velX| = |b.velX| ∧ |(collideAI p b).velY| = |b.velY|) ∧
    (∀ (b : Ball) (d1 d2 : Nat),
      |(resetBall b d1 d2).velX| = (BALL_SPEED : ℚ) ∧
      |(resetBall b d1 d2).velY| = (BALL_SPEED : ℚ)) := by
  have hb5 : (BALL_SPEED : ℚ) = 5 := by simp [BALL_SPEED]
  rw [hb5]
  refine ⟨reachable_speed L s hs, ?_, ?_, ?_, ?_⟩
  · intro b
    exact ⟨by rw [bounceWalls_velX], bounceWalls_abs_velY b⟩
  · intro p b
    exact ⟨collidePlayer_abs_velX p b, by rw [collidePlayer_velY]⟩
  · intro p b
    exact ⟨collideAI_abs_velX p b, by rw [collideAI_velY]⟩
  · intro b d1 d2
    exact ⟨abs_randomDirection d1, abs_randomDirection d2⟩

/-- Witness of C5: `afterFirstPoint`, reached after 80 frames with a wall
bounce and a score reset, has velocity `(-5, 5)`. -/
theorem ball_speed_invariant_witness :
    Reachable demoLibm afterFirstPoint ∧ afterFirstPoint.aiScore = 1 ∧
    afterFirstPoint.ball.velX = -5 ∧ afterFirstPoint.ball.velY = 5 ∧
    |afterFirstPoint.ball.velX| = (BALL_SPEED : ℚ) ∧
    |afterFirstPoint.ball.velY| = (BALL_SPEED : ℚ) :=
  have r : Reachable demoLibm afterFirstPoint := reachable_run _ _ _ (Reachable.init 1 1 0)
  ⟨r, by decide!, by decide!, by decide!,
    (ball_speed_invariant demoLibm afterFirstPoint r).1⟩

/-! ## Particles -/

/-- C6: a `ParticleSystem` constructed with capacity 500 holds at most 500
particles after every finite sequence of `emit` and `update` calls, whatever
their arguments; and `emit` on a system of capacity 500 that already holds 500
or more particles returns the system unchanged. -/
theorem particle_capacity (L : Libm) :
    (∀ ops : List ParticleOp,
      (applyOps L ops (ParticleSystem.new 500)).particles.length ≤ 500) ∧
    (∀ (ps : ParticleSystem) (x y : ℚ) (c : SDL_Color) (a b : Nat),
      ps.maxParticles = 500 → 500 ≤ ps.particles.length → ps.emit L x y c a b = ps) := by
  constructor
  · intro ops
    exact (applyOps_bounded L ops (ParticleSystem.new 500) rfl (Nat.zero_le _)).2
  · intro ps x y c a b hcap hfull
    exact emit_full L ps x y c a b hcap hfull

/-- Witness of C6: 501 `emit` calls on a new system of capacity 500 leave
exactly 500 particles, and `emit` does not change `fullSystem`. -/
theorem particle_capacity_witness :
    (applyOps demoLibm (List.replicate 501 emitOp) (ParticleSystem.new 500)).particles.length
      = 500 ∧
    (applyOps demoLibm (List.replicate 501 emitOp) (ParticleSystem.new 500)).particles.length
      ≤ 500 ∧
    fullSystem.maxParticles = 500 ∧ 500 ≤ fullSystem.particles.length ∧
    fullSystem.emit demoLibm 1 2 fireColor 3 4 = fullSystem :=
  ⟨by decide!,
   (particle_capacity demoLibm).1 (List.replicate 501 emitOp),
   rfl, le_of_eq (List.length_replicate 500 _).symm,
   (particle_capacity demoLibm).2 fullSystem 1 2 fireColor 3 4 rfl
     (le_of_eq (List.length_replicate 500 _).symm)⟩

/-- C7: a particle created by `emit` in any system with room for it (lifetime
1, alpha 255, appended behind the particles already there) and then followed
through any sequence of further `emit` and `update` calls with non-negative
delta-times, in exact arithmetic. The vector is always the particles that were
there before it, aged on their own, then the particle itself if it is still
present, then the particles emitted after it. The particle is present exactly
when the delta-times passed to `update` so far sum to less than 1, and then it
has moved by its velocity times the sum, its lifetime is `1 - sum` and its
alpha is `255 * (1 - sum)`; when the sum is 1 or more it is gone. Applied to
every initial part of a sequence, the particle is removed at the first update
at which the accumulated delta-time reaches 1. -/
theorem particle_lifetime (L : Libm) (ps : ParticleSystem) (x y : ℚ) (c : SDL_Color)
    (a b : Nat) (ops : List ParticleOp)
    (hroom : (ps.particles.length : Int) < ps.maxParticles % 2 ^ 64)
    (hd : ∀ d ∈ updateDeltas ops, 0 ≤ d) :
    (ps.emit L x y c a b).particles = ps.particles ++ [newParticle L x y c a b] ∧
    (newParticle L x y c a b).lifetime = 1 ∧ (newParticle L x y c a b).alpha = 255 ∧
    ((updateDeltas ops).sum < 1 →
      (applyOps L ops (ps.emit L x y c a b)).particles =
        agedBy (updateDeltas ops) ps.particles ++
        [{ newParticle L x y c a b with
            x := x + (newParticle L x y c a b).velX * (updateDeltas ops).sum,
            y := y + (newParticle L x y c a b).velY * (updateDeltas ops).sum,
            lifetime := 1 - (updateDeltas ops).sum,
            alpha := 255 * (1 - (updateDeltas ops).sum) }] ++
        (applyOpsSplit L ps.maxParticles ops
          (ps.particles, [newParticle L x y c a b], [])).2.2) ∧
    (1 ≤ (updateDeltas ops).sum →
      (applyOps L ops (ps.emit L x y c a b)).particles =
        agedBy (updateDeltas ops) ps.particles ++
        (applyOpsSplit L ps.maxParticles ops
          (ps.particles, [newParticle L x y c a b], [])).2.2) := by
  have hemit : ps.emit L x y c a b =
      { particles := ps.particles ++ [newParticle L x y c a b] ++ [],
        maxParticles := ps.maxParticles } := by
    unfold ParticleSystem.emit
    rw [if_neg (not_le.2 hroom), List.append_nil]
  have hsplit := applyOps_split L ps.maxParticles ops
    (ps.particles, [newParticle L x y c a b], [])
  have hparts := applyOpsSplit_fst L ps.maxParticles ops
    (ps.particles, [newParticle L x y c a b], [])
  have hsingle := agedBy_single (updateDeltas ops) hd (newParticle L x y c a b)
    (by show (0 : ℚ) < 1; norm_num) (by show (255 : ℚ) = 255 * 1; norm_num)
  have hall : (applyOps L ops (ps.emit L x y c a b)).particles =
      agedBy (updateDeltas ops) ps.particles ++
      agedBy (updateDeltas ops) [newParticle L x y c a b] ++
      (applyOpsSplit L ps.maxParticles ops
        (ps.particles, [newParticle L x y c a b], [])).2.2 := by
    rw [hemit, hsplit, hparts.1, hparts.2]
  refine ⟨?_, rfl, rfl, ?_, ?_⟩
  · rw [hemit, List.append_nil]
  · intro hlt
    rw [hall, hsingle, if_pos (by exact hlt)]
    rfl
  · intro hge
    rw [hall, hsingle, if_neg (by exact not_lt.2 hge), List.append_nil]

/-- Witness of C7: a particle is emitted into `busySystem`, behind a particle
with half a second left, and followed through `lifetimeOps`. After the three
updates (sum 3/4) the older particle is gone, the followed particle is first
in the vector with lifetime 1/4 and alpha 255/4, and the particle emitted in
between is behind it; one more update of 1/4 (sum 1) removes the followed
particle and leaves only the later one. -/
theorem particle_lifetime_witness :
    ((busySystem.particles.length : Int) < busySystem.maxParticles % 2 ^ 64 ∧
      (∀ d ∈ updateDeltas lifetimeOps, (0 : ℚ) ≤ d) ∧
      (updateDeltas lifetimeOps).sum = 3 / 4 ∧
      (applyOps demoLibm lifetimeOps
          (busySystem.emit demoLibm 100 200 fireColor 90 0)).particles =
        [{ x := 275 / 2, y := 200, velX := 50, velY := 0, alpha := 255 / 4, lifetime := 1 / 4,
           color := fireColor },
         { x := 8507 / 20, y := 300, velX := 507 / 10, velY := 0, alpha := 255 / 2,
           lifetime := 1 / 2, color := fireColor }]) ∧
    ((updateDeltas (lifetimeOps ++ [.update (1 / 4)])).sum = 1 ∧
      (applyOps demoLibm (lifetimeOps ++ [.update (1 / 4)])
          (busySystem.emit demoLibm 100 200 fireColor 90 0)).particles =
        [{ x := 17521 / 40, y := 300, velX := 507 / 10, velY := 0, alpha := 255 / 4,
           lifetime := 1 / 4, color := fireColor }]) :=
  have hroom : (busySystem.particles.length : Int) < busySystem.maxParticles % 2 ^ 64 := by
    decide
  have hd3 : ∀ d ∈ updateDeltas lifetimeOps, (0 : ℚ) ≤ d := by
    intro d hd
    simp [updateDeltas, lifetimeOps, emitOp] at hd
    rw [hd]
    norm_num
  have hd4 : ∀ d ∈ updateDeltas (lifetimeOps ++ [.update (1 / 4)]), (0 : ℚ) ≤ d := by
    intro d hd
    simp [updateDeltas, lifetimeOps, emitOp] at hd
    rw [hd]
    norm_num
  have hs3 : (updateDeltas lifetimeOps).sum = 3 / 4 := by
    simp [updateDeltas, lifetimeOps, emitOp]
    norm_num
  have hs4 : (updateDeltas (lifetimeOps ++ [.update (1 / 4)])).sum = 1 := by
    simp [updateDeltas, lifetimeOps, emitOp]
    norm_num
  ⟨⟨hroom, hd3, hs3,
    ((particle_lifetime demoLibm busySystem 100 200 fireColor 90 0 lifetimeOps hroom
      hd3).2.2.2.1 (by rw [hs3]; norm_num)).trans (by
        simp only [agedBy, applyOpsSplit, applyOpSplit, updateDeltas, lifetimeOps, emitOp,
          busySystem, List.foldl, List.cons_append, List.nil_append, updateLoop_zero]
        decide!)⟩,
   ⟨hs4,
    ((particle_lifetime demoLibm busySystem 100 200 fireColor 90 0
      (lifetimeOps ++ [.update (1 / 4)]) hroom hd4).2.2.2.2 (by rw [hs4])).trans (by
        simp only [agedBy, applyOpsSplit, applyOpSplit, updateDeltas, lifetimeOps, emitOp,
          busySystem, List.foldl, List.cons_append, List.nil_append, updateLoop_zero]
        decide!)⟩⟩

/-- C8, the code at the failing input: with the speed draw 0 the speed computed
by `emit` is 50, not `(0 mod 50) / 10 + 5 = 5`, and it is outside `[5, 10)`; for
every draw the speed lies in `[50, 55)`. The particle emitted with the draws 90
and 0 has velocity `(cos angle * 50, sin angle * 50)`, which is `(50, 0)` for
the stand-in `demoLibm`. -/
theorem emit_speed_failing_input :
    emitSpeed 0 = 50 ∧
    emitSpeed 0 ≠ ((0 % 50 : Nat) : ℚ) / 10 + 5 ∧
    ¬ (5 ≤ emitSpeed 0 ∧ emitSpeed 0 < 10) ∧
    (∀ r : Nat, 50 ≤ emitSpeed r ∧ emitSpeed r < 55) ∧
    (∀ (L : Libm) (x y : ℚ) (c : SDL_Color) (r1 r2 : Nat),
      (newParticle L x y c r1 r2).velX = L.cos (emitAngle L r1) * emitSpeed r2 ∧
      (newParticle L x y c r1 r2).velY = L.sin (emitAngle L r1) * emitSpeed r2) ∧
    ((ParticleSystem.new 500).emit demoLibm 400 300 fireColor 90 0).particles =
      [{ x := 400, y := 300, velX := 50, velY := 0, alpha := 255, lifetime := 1,
         color := fireColor }] := by
  have h0 : emitSpeed 0 = 50 := by
    unfold emitSpeed
    norm_num
  refine ⟨h0, ?_, ?_, ?_, ?_, ?_⟩
  · rw [h0]; norm_num
  · rw [h0]; norm_num
  · intro r
    unfold emitSpeed
    have h1 : r % 50 < 50 := Nat.mod_lt _ (by norm_num)
    have h2 : ((r % 50 : Nat) : ℚ) < 50 := by exact_mod_cast h1
    have h3 : (0 : ℚ) ≤ ((r % 50 : Nat) : ℚ) := Nat.cast_nonneg _
    constructor <;> linarith
  · intro L x y c r1 r2
    exact ⟨rfl, rfl⟩
  · unfold ParticleSystem.emit ParticleSystem.new
    rw [if_neg (by norm_num)]
    simp only [List.nil_append, newParticle, demoLibm, h0]
    norm_num

/-! ## Streak message expiry -/

/-- C9: for an activation time `s` and a check time `t` with `s ≤ t` (both
`Uint32` ticks), the check of the render section keeps a non-empty message when
`t - s ≤ 2000`, replaces it by the empty string when `t - s > 2000`, and leaves
an empty message empty; this check is the last thing a frame does to the
message. -/
theorem streak_message_expiry (msg : String) (s t : Nat) (hst : s ≤ t) (ht : t < 2 ^ 32) :
    (msg ≠ "" → t - s ≤ 2000 → expireStreakMessage t msg s = msg) ∧
    (msg ≠ "" → 2000 < t - s → expireStreakMessage t msg s = "") ∧
    expireStreakMessage t "" s = "" ∧
    (∀ (L : Libm) (inp : FrameInput) (g : GameState),
      (frame L inp g).currentStreakMessage =
        expireStreakMessage inp.currentTime
          (checkScoring inp (beforeScoring L inp g)).currentStreakMessage
          (checkScoring inp (beforeScoring L inp g)).streakMessageStartTime) := by
  have hsub := u32sub_of_le t s hst ht
  refine ⟨?_, ?_, ?_, ?_⟩
  · intro hne hle
    unfold expireStreakMessage
    rw [if_pos hne, hsub, if_pos]
    exact hle
  · intro hne hgt
    unfold expireStreakMessage
    rw [if_pos hne, hsub, if_neg]
    exact not_le.2 hgt
  · unfold expireStreakMessage
    rw [if_neg (by simp)]
  · intro L inp g
    rfl

/-- Witness of C9: "Holy Shit!" activated at tick 1000 is kept by the checks
at ticks 2999 and 3000 and cleared by the check at tick 3001. -/
theorem streak_message_expiry_witness :
    expireStreakMessage 2999 "Holy Shit!" 1000 = "Holy Shit!" ∧
    expireStreakMessage 3000 "Holy Shit!" 1000 = "Holy Shit!" ∧
    expireStreakMessage 3001 "Holy Shit!" 1000 = "" ∧
    expireStreakMessage 3001 "" 1000 = "" :=
  ⟨(streak_message_expiry "Holy Shit!" 1000 2999 (by decide) (by decide)).1
      (by decide) (by decide),
   (streak_message_expiry "Holy Shit!" 1000 3000 (by decide) (by decide)).1
      (by decide) (by decide),
   (streak_message_expiry "Holy Shit!" 1000 3001 (by decide) (by decide)).2.1
      (by decide) (by decide),
   (streak_message_expiry "Holy Shit!" 1000 3001 (by decide) (by decide)).2.2.1⟩

/-! ## AI paddle -/

/-- C11: in every frame, with `c = ai.y + ai.height / 2` and `b` the ball's y at
the start of the frame: when `c < b` and `ai.y < SCREEN_HEIGHT - ai.height` the
AI paddle's y grows by exactly `ai.speed`; else when `c > b` and `ai.y > 0` it
shrinks by exactly `ai.speed`; otherwise it is unchanged, in particular when
`c = b`. The AI paddle's x is never changed. -/
theorem ai_policy (L : Libm) (inp : FrameInput) (s : GameState) :
    (s.ai.y + (s.ai.height : ℚ) / 2 < s.ball.y ∧
        s.ai.y < ((SCREEN_HEIGHT - s.ai.height : Int) : ℚ) →
      (frame L inp s).ai.y = s.ai.y + (s.ai.speed : ℚ)) ∧
    (¬ (s.ai.y + (s.ai.height : ℚ) / 2 < s.ball.y ∧
        s.ai.y < ((SCREEN_HEIGHT - s.ai.height : Int) : ℚ)) →
      s.ai.y + (s.ai.height : ℚ) / 2 > s.ball.y ∧ s.ai.y > 0 →
      (frame L inp s).ai.y = s.ai.y - (s.ai.speed : ℚ)) ∧
    (¬ (s.ai.y + (s.ai.height : ℚ) / 2 < s.ball.y ∧
        s.ai.y < ((SCREEN_HEIGHT - s.ai.height : Int) : ℚ)) →
      ¬ (s.ai.y + (s.ai.height : ℚ) / 2 > s.ball.y ∧ s.ai.y > 0) →
      (frame L inp s).ai.y = s.ai.y) ∧
    (s.ai.y + (s.ai.height : ℚ) / 2 = s.ball.y → (frame L inp s).ai.y = s.ai.y) ∧
    (frame L inp s).ai.x = s.ai.x := by
  rw [frame_ai]
  refine ⟨?_, ?_, ?_, ?_, (moveAI_static s.ai s.ball).1⟩
  · intro h
    unfold moveAI
    rw [if_pos h]
  · intro h1 h2
    unfold moveAI
    rw [if_neg h1, if_pos h2]
  · intro h1 h2
    unfold moveAI
    rw [if_neg h1, if_neg h2]
  · intro h
    unfold moveAI
    rw [if_neg (fun h1 => absurd h (ne_of_lt h1.1)),
      if_neg (fun h2 => absurd h (ne_of_gt h2.1))]

/-- Witness of C11: in `afterFirstPoint` the paddle centre 105 is above the
ball at 305 and the paddle moves from 55 to 58; in `leftExitState` the centre
300 is below the ball at 295 and the paddle moves from 250 to 247; in the
initial state the centre equals the ball's y and the paddle stays at 250. -/
theorem ai_policy_witness :
    (afterFirstPoint.ai.y = 55 ∧ afterFirstPoint.ball.y = 305 ∧
      (frame demoLibm idleInput afterFirstPoint).ai.y = 58) ∧
    (leftExitState.ai.y = 250 ∧ leftExitState.ball.y = 295 ∧
      (frame demoLibm idleInput leftExitState).ai.y = 247) ∧
    ((initialState 0 0 0).ai.y + ((initialState 0 0 0).ai.height : ℚ) / 2 =
        (initialState 0 0 0).ball.y ∧
      (frame demoLibm idleInput (initialState 0 0 0)).ai.y = 250) :=
  ⟨⟨by decide!, by decide!,
    ((ai_policy demoLibm idleInput afterFirstPoint).1 (by decide!)).trans (by decide!)⟩,
   ⟨by decide!, by decide!,
    ((ai_policy demoLibm idleInput leftExitState).2.1 (by decide!) (by decide!)).trans
      (by decide!)⟩,
   ⟨by decide!,
    ((ai_policy demoLibm idleInput (initialState 0 0 0)).2.2.2.1 (by decide!)).trans
      (by decide!)⟩⟩

/-! ## Ball movement and wall bounce -/

/-- C13: in every frame the ball position right after the integration step is
the position at the start of the frame plus the velocity at the start of the
frame, component by component; the wall and paddle checks leave that position
as it is, and in a frame without a scoring event it is still the position at
the end of the frame. -/
theorem ball_integration (L : Libm) (inp : FrameInput) (s : GameState) :
    ((moveBall s.ball).x = s.ball.x + s.ball.velX ∧
      (moveBall s.ball).y = s.ball.y + s.ball.velY) ∧
    ((beforeScoring L inp s).ball.x = s.ball.x + s.ball.velX ∧
      (beforeScoring L inp s).ball.y = s.ball.y + s.ball.velY) ∧
    (¬ aiScores (moveBall s.ball) → ¬ playerScores (moveBall s.ball) →
      (frame L inp s).ball.x = s.ball.x + s.ball.velX ∧
      (frame L inp s).ball.y = s.ball.y + s.ball.velY) := by
  refine ⟨⟨rfl, rfl⟩, ⟨?_, ?_⟩, ?_⟩
  · rw [beforeScoring_ball_x]; rfl
  · rw [beforeScoring_ball_y]; rfl
  · intro h1 h2
    have h2r : ¬ (moveBall s.ball).x + ((moveBall s.ball).radius : ℚ) > (SCREEN_WIDTH : ℚ) :=
      fun h => h2 ⟨h1, h⟩
    rw [frame_ball_of_no_score L inp s h1 h2r, beforeScoring_ball_x, beforeScoring_ball_y]
    exact ⟨rfl, rfl⟩

/-- Witness of C13: from `beforePlayerHit`, with the ball at `(85, 35)` and
velocity `(-5, 5)`, nobody scores and the frame, which has a paddle collision,
ends with the ball at `(80, 40)`. -/
theorem ball_integration_witness :
    beforePlayerHit.ball.x = 85 ∧ beforePlayerHit.ball.y = 35 ∧
    beforePlayerHit.ball.velX = -5 ∧ beforePlayerHit.ball.velY = 5 ∧
    ¬ aiScores (moveBall beforePlayerHit.ball) ∧
    ¬ playerScores (moveBall beforePlayerHit.ball) ∧
    (frame demoLibm holdWInput beforePlayerHit).ball.x = 80 ∧
    (frame demoLibm holdWInput beforePlayerHit).ball.y = 40 :=
  have h := (ball_integration demoLibm holdWInput beforePlayerHit).2.2
    (by decide!) (by decide!)
  ⟨by decide!, by decide!, by decide!, by decide!, by decide!, by decide!,
    h.1.trans (by decide!), h.2.trans (by decide!)⟩

/-- C14: the wall check, applied to the moved ball of every frame: when
`ball.y - radius ≤ 0` or `ball.y + radius ≥ SCREEN_HEIGHT` the vertical velocity
is negated, otherwise it is unchanged; in both cases the position, the radius
and the horizontal velocity are unchanged. The vertical velocity it leaves is
the one the scoring check of the frame sees. -/
theorem wall_bounce (b : Ball) :
    (hitsWall b ↔ (b.y - (b.radius : ℚ) ≤ 0 ∨ b.y + (b.radius : ℚ) ≥ (SCREEN_HEIGHT : ℚ))) ∧
    (hitsWall b → (bounceWalls b).velY = -b.velY) ∧
    (¬ hitsWall b → (bounceWalls b).velY = b.velY) ∧
    (bounceWalls b).x = b.x ∧ (bounceWalls b).y = b.y ∧
    (bounceWalls b).velX = b.velX ∧ (bounceWalls b).radius = b.radius ∧
    (∀ (L : Libm) (inp : FrameInput) (s : GameState),
      (beforeScoring L inp s).ball.velY = (bounceWalls (moveBall s.ball)).velY) := by
  refine ⟨Iff.rfl, ?_, ?_, bounceWalls_x b, bounceWalls_y b, bounceWalls_velX b,
    bounceWalls_radius b, ?_⟩
  · intro h
    unfold bounceWalls
    rw [if_pos h]
  · intro h
    unfold bounceWalls
    rw [if_neg h]
  · intro L inp s
    rw [beforeScoring_ball, collideAI_velY, collidePlayer_velY]

/-- Witness of C14: a ball moved to `y = 10` with `velY = -5` touches the top
wall and leaves with `velY = 5`; a ball at `y = 300` keeps its `velY`. -/
theorem wall_bounce_witness :
    (hitsWall { x := 200, y := 10, velX := -5, velY := -5, radius := 10 } ∧
      (bounceWalls { x := 200, y := 10, velX := -5, velY := -5, radius := 10 }).velY = 5) ∧
    (¬ hitsWall { x := 200, y := 300, velX := -5, velY := -5, radius := 10 } ∧
      (bounceWalls { x := 200, y := 300, velX := -5, velY := -5, radius := 10 }).velY = -5) :=
  ⟨⟨by decide!,
    ((wall_bounce { x := 200, y := 10, velX := -5, velY := -5, radius := 10 }).2.1
      (by decide!)).trans (by decide!)⟩,
   ⟨by decide!,
    (wall_bounce { x := 200, y := 300, velX := -5, velY := -5, radius := 10 }).2.2.1
      (by decide!)⟩⟩

/-! ## The update loop against its reference -/

/-- C15: for every particle list and every delta-time, in exact arithmetic,
the vector left by `update` is `updateReference`: the particles with
`lifetime - dt > 0`, in their original order, each with x advanced by
`velX * dt`, y advanced by `velY * dt`, lifetime reduced by `dt`, alpha set to
255 times the new lifetime, velocity and colour unchanged. The capacity is not
changed either. -/
theorem update_refines_reference (ps : ParticleSystem) (dt : ℚ) :
    (ps.update dt).particles = updateReference dt ps.particles ∧
    (ps.update dt).maxParticles = ps.maxParticles := by
  refine ⟨?_, rfl⟩
  rw [update_particles, filterMap_updateParticle]

/-! ## Paddle collisions against scoring -/

/-- C17: with the player paddle at `x = 50`, the AI paddle at `x = 730`, both
of width 20, and a ball of radius 10, for every ball position and every paddle
y: a ball that overlaps one of the paddles satisfies neither scoring condition
(`ball.x - radius < 0`, `ball.x + radius > SCREEN_WIDTH`), and no ball overlaps
both paddles. So in a frame with a paddle overlap the scoring check changes
nothing. -/
theorem paddle_hit_excludes_score (player ai : Paddle) (b : Ball)
    (hpx : player.x = 50) (hpw : player.width = 20) (hax : ai.x = 730) (haw : ai.width = 20)
    (hr : b.radius = 10) :
    (overlapsPlayer player b ∨ overlapsAI ai b →
      ¬ b.x - (b.radius : ℚ) < 0 ∧ ¬ b.x + (b.radius : ℚ) > (SCREEN_WIDTH : ℚ)) ∧
    ¬ (overlapsPlayer player b ∧ overlapsAI ai b) ∧
    (∀ (inp : FrameInput) (s : GameState), s.ball = b →
      overlapsPlayer player b ∨ overlapsAI ai b → checkScoring inp s = s) := by
  have key : overlapsPlayer player b ∨ overlapsAI ai b →
      ¬ b.x - (b.radius : ℚ) < 0 ∧ ¬ b.x + (b.radius : ℚ) > (SCREEN_WIDTH : ℚ) := by
    intro h
    rcases h with h | h
    · exact (overlapsPlayer_excludes player ai b hpx hpw hax hr h).2
    · exact (overlapsAI_excludes player ai b hpx hpw hax haw hr h).2
  refine ⟨key, ?_, ?_⟩
  · intro h
    exact (overlapsPlayer_excludes player ai b hpx hpw hax hr h.1).1 h.2
  · intro inp s hs h
    have hk := key h
    rw [← hs] at hk
    exact checkScoring_none inp s hk.1 hk.2

/-- Witness of C17: the ball at `(80, 40)` overlaps the player paddle at
`y = 0` and not the AI paddle, and satisfies neither scoring condition. -/
theorem paddle_hit_excludes_score_witness :
    overlapsPlayer { x := 50, y := 0, width := 20, height := 100, speed := 5 }
      { x := 80, y := 40, velX := -5, velY := 5, radius := 10 } ∧
    ¬ overlapsAI { x := 730, y := 61, width := 20, height := 100, speed := 3 }
      { x := 80, y := 40, velX := -5, velY := 5, radius := 10 } ∧
    ¬ ((80 : ℚ) - ((10 : Int) : ℚ) < 0) ∧
    ¬ ((80 : ℚ) + ((10 : Int) : ℚ) > (SCREEN_WIDTH : ℚ)) :=
  have h := paddle_hit_excludes_score
    { x := 50, y := 0, width := 20, height := 100, speed := 5 }
    { x := 730, y := 61, width := 20, height := 100, speed := 3 }
    { x := 80, y := 40, velX := -5, velY := 5, radius := 10 } rfl rfl rfl rfl rfl
  have o : overlapsPlayer { x := 50, y := 0, width := 20, height := 100, speed := 5 }
      { x := 80, y := 40, velX := -5, velY := 5, radius := 10 } := by decide!
  ⟨o, fun h2 => h.2.1 ⟨o, h2⟩, (h.1 (Or.inl o)).1, (h.1 (Or.inl o)).2⟩

/-! ## Invariants of the paddles and the streaks -/

/-- C12: in every reachable state the player paddle's y lies in
`[0, SCREEN_HEIGHT - PADDLE_HEIGHT] = [0, 500]`, and so it does at the end of
the next frame for every combination of the two keys, both held included. -/
theorem player_paddle_clamped (L : Libm) (s : GameState) (hs : Reachable L s) :
    (0 ≤ s.player.y ∧ s.player.y ≤ ((SCREEN_HEIGHT - PADDLE_HEIGHT : Int) : ℚ)) ∧
    ((SCREEN_HEIGHT - PADDLE_HEIGHT : Int) : ℚ) = 500 ∧
    (∀ inp : FrameInput,
      0 ≤ (frame L inp s).player.y ∧ (frame L inp s).player.y ≤ 500) := by
  have e : ((SCREEN_HEIGHT - PADDLE_HEIGHT : Int) : ℚ) = 500 := by
    simp only [SCREEN_HEIGHT, PADDLE_HEIGHT]
    norm_num
  rw [e]
  exact ⟨reachable_player_bounds L s hs, rfl,
    fun inp => reachable_player_bounds L _ (Reachable.step inp s hs)⟩

/-- Witness of C12: after 60 frames of S the paddle is at 500 and another
frame of S, or of both keys, leaves it within `[0, 500]`; after 63 frames of W
it is at 0 and another frame of W leaves it at 0. -/
theorem player_paddle_clamped_witness :
    (Reachable demoLibm playerAtBottom ∧ playerAtBottom.player.y = 500 ∧
      (frame demoLibm holdSInput playerAtBottom).player.y = 500 ∧
      (frame demoLibm holdBothInput playerAtBottom).player.y = 500 ∧
      (frame demoLibm holdBothInput playerAtBottom).player.y ≤ 500) ∧
    (Reachable demoLibm beforePlayerHit ∧ beforePlayerHit.player.y = 0 ∧
      (frame demoLibm holdWInput beforePlayerHit).player.y = 0 ∧
      0 ≤ (frame demoLibm holdWInput beforePlayerHit).player.y) :=
  have r1 : Reachable demoLibm playerAtBottom := reachable_run _ _ _ (Reachable.init 1 1 0)
  have r2 : Reachable demoLibm beforePlayerHit := reachable_run _ _ _ (Reachable.init 1 1 0)
  ⟨⟨r1, by decide!, by decide!, by decide!,
    ((player_paddle_clamped demoLibm playerAtBottom r1).2.2 holdBothInput).2⟩,
   ⟨r2, by decide!, by decide!,
    ((player_paddle_clamped demoLibm beforePlayerHit r2).2.2 holdWInput).1⟩⟩

/-- C18: in every reachable state both streaks are non-negative, at most one
of them is non-zero, and each streak is at most its own side's score. -/
theorem streak_exclusivity (L : Libm) (s : GameState) (hs : Reachable L s) :
    0 ≤ s.playerStreak ∧ 0 ≤ s.aiStreak ∧
    (s.playerStreak = 0 ∨ s.aiStreak = 0) ∧
    s.playerStreak ≤ s.playerScore ∧ s.aiStreak ≤ s.aiScore := by
  have h := reachable_streakInv L s hs
  exact ⟨h.1, h.2, h.3, h.4, h.5⟩

/-- Witness of C18: in `afterFirstPoint` the AI has score 1 and streak 1 and
the player has score 0 and streak 0. -/
theorem streak_exclusivity_witness :
    Reachable demoLibm afterFirstPoint ∧
    afterFirstPoint.aiScore = 1 ∧ afterFirstPoint.aiStreak = 1 ∧
    afterFirstPoint.playerScore = 0 ∧ afterFirstPoint.playerStreak = 0 ∧
    (afterFirstPoint.playerStreak = 0 ∨ afterFirstPoint.aiStreak = 0) ∧
    afterFirstPoint.aiStreak ≤ afterFirstPoint.aiScore :=
  have r : Reachable demoLibm afterFirstPoint := reachable_run _ _ _ (Reachable.init 1 1 0)
  have h := streak_exclusivity demoLibm afterFirstPoint r
  ⟨r, by decide!, by decide!, by decide!, by decide!, h.2.2.1, h.2.2.2.2⟩

/-- C19: in every reachable state the AI paddle's y satisfies
`-ai.speed < ai.y < (SCREEN_HEIGHT - ai.height) + ai.speed`, which is
`-3 < ai.y < 503`. -/
theorem ai_overshoot_bounded (L : Libm) (s : GameState) (hs : Reachable L s) :
    (-(s.ai.speed : ℚ) < s.ai.y ∧
      s.ai.y < ((SCREEN_HEIGHT - s.ai.height : Int) : ℚ) + (s.ai.speed : ℚ)) ∧
    (-3 < s.ai.y ∧ s.ai.y < 503) := by
  have hst := reachable_static L s hs
  have hb := reachable_ai_bounds L s hs
  refine ⟨?_, hb⟩
  rw [hst.ai_speed, hst.ai_height]
  simp only [SCREEN_HEIGHT]
  norm_num
  exact hb

/-- Witness of C19: `aiOvershoot` is reachable and its AI paddle is at
`y = 502`, beyond the lowest clamped position 500 and short of 503. -/
theorem ai_overshoot_bounded_witness :
    Reachable demoLibm aiOvershoot ∧ aiOvershoot.ai.y = 502 ∧
    (-3 < aiOvershoot.ai.y ∧ aiOvershoot.ai.y < 503) :=
  have r : Reachable demoLibm aiOvershoot :=
    reachable_run _ _ _ (reachable_run _ _ _ (reachable_run _ _ _ (Reachable.init 1 0 0)))
  ⟨r, ai_y_of_kinematics aiOvershoot idleAfter225 aiOvershoot_kinematics,
    (ai_overshoot_bounded demoLibm aiOvershoot r).2⟩

/-! ## The ball between the walls -/

/-- C16: in every reachable state the ball's y lies between `radius` and
`SCREEN_HEIGHT - radius`, that is `10 ≤ y ≤ 590`, and so it does at the end of
the next frame; and when the wall check of a frame negates the vertical
velocity, the wall check of the following frame does not, at either wall. -/
theorem ball_stays_on_screen (L : Libm) (s : GameState) (hs : Reachable L s) :
    ((s.ball.radius : ℚ) ≤ s.ball.y ∧
      s.ball.y ≤ (SCREEN_HEIGHT : ℚ) - (s.ball.radius : ℚ)) ∧
    (10 ≤ s.ball.y ∧ s.ball.y ≤ 590) ∧
    (∀ inp : FrameInput,
      (10 ≤ (frame L inp s).ball.y ∧ (frame L inp s).ball.y ≤ 590) ∧
      (hitsWall (moveBall s.ball) → ¬ hitsWall (moveBall (frame L inp s).ball))) := by
  have hinv := reachable_ballYInv L s hs
  have hb := ballYInv_bounds s.ball hinv
  refine ⟨?_, hb, fun inp => ?_⟩
  · rw [hinv.1]
    simp only [SCREEN_HEIGHT]
    norm_num
    exact hb
  · have hf := frame_ballYInv L inp s hinv
    exact ⟨ballYInv_bounds _ hf.1, hf.2⟩

/-- Witness of C16: `beforeWallHit` is reachable with the ball at `y = 15`;
the next frame moves it to `y = 10`, where it touches the top wall, and in the
frame after that it does not touch a wall. -/
theorem ball_stays_on_screen_witness :
    Reachable demoLibm beforeWallHit ∧ beforeWallHit.ball.y = 15 ∧
    hitsWall (moveBall beforeWallHit.ball) ∧
    (frame demoLibm idleInput beforeWallHit).ball.y = 10 ∧
    (10 ≤ (frame demoLibm idleInput beforeWallHit).ball.y ∧
      (frame demoLibm idleInput beforeWallHit).ball.y ≤ 590) ∧
    ¬ hitsWall (moveBall (frame demoLibm idleInput beforeWallHit).ball) :=
  have r : Reachable demoLibm beforeWallHit := reachable_run _ _ _ (Reachable.init 1 1 0)
  have hit : hitsWall (moveBall beforeWallHit.ball) := by decide!
  have h := (ball_stays_on_screen demoLibm beforeWallHit r).2.2 idleInput
  ⟨r, by decide!, hit, by decide!, h.1, h.2 hit⟩

end Pong
